import Mathlib

/-
Verification development for GoblinStockAlerts (GSA): a shallow embedding
of the realm polling scheduler and deal-matching pipeline, together with
theorems checking the natural-language specification against it.

Embedded source files:
  * GoblinStockAlerts-6.1.1/GoblinStockAlerts/state.py      (realm state store, desync estimator)
  * GoblinStockAlerts-6.1.1/GoblinStockAlerts/results.py    (result watcher / reconciler)
  * GoblinStockAlerts-6.1.1/GoblinStockAlerts/scheduler.py  (admission control)
  * GoblinStockAlerts-6.1.1/GoblinStockAlerts/deals.py      (deal matcher)
  * GoblinStockAlerts-6.1.1/GoblinStockAlerts/items.py      (item-level curve resolution)
  * GoblinStockAlerts-5.6.0/GoblinStockAlerts/download.py   (fetch-and-filter worker)
  * GoblinStockAlerts-5.6.0/GoblinStockAlerts/helpers.py    (auction_price_get)
  * GoblinStockAlerts-5.6.0/GoblinStockAlerts/callbacks.py  (commodity merger)

Modelling conventions:
  * timestamps are rational numbers of seconds (datetime arithmetic maps to
    subtraction of seconds);
  * Python dicts keyed by ids are association lists `List (Nat x _)` in
    insertion order, or total functions `Nat -> State` for the realm store;
  * a Python `KeyError`/`IndexError` escaping a function is modelled by an
    `Option`/`Except` result (`none` / `.error msg`);
  * logging calls are modelled, where a claim needs to observe which branch
    ran, by an explicit event value returned next to the new state.
-/

/-
Batteries marks the `Rat` field operations `@[irreducible]`, which blocks
`decide`-style evaluation of concrete rational arithmetic.  Restoring the
default reducibility keeps every proof kernel-checked while letting
witnesses and counterexamples evaluate the embedded functions directly.
-/
set_option allowUnsafeReducibility true

attribute [semireducible] Rat.add Rat.sub Rat.mul Rat.inv Rat.div

namespace GSA

/-! ### state.py: status constants and the per-realm state -/

def STATE_ERROR_QUOTA : Int := -2

def STATE_ERROR : Int := -1

def STATE_READY : Int := 0

def STATE_SCHEDULED : Int := 1

def STATE_FINISHED : Int := 2

def STATE_NEW_DATA : Int := 3

/-- state.py `State.__init__`: the mutable per-realm record.  `response`
(the future handle) is modelled by feeding the completed worker outcome
directly to the result-watcher step, so it is not a field here. -/
structure State where
  id : Nat
  status : Int
  last_modified : ℚ
  last_checked : ℚ
  hashes : List (Option Nat)
deriving DecidableEq, Repr

/-- state.py `State.__init__`: a fresh realm is READY with `last_modified`
and `last_checked` one day (86400 s) in the past. -/
def State.init (connected_realm_id : Nat) (now : ℚ) : State :=
  { id := connected_realm_id
    status := STATE_READY
    last_modified := now - 86400
    last_checked := now - 86400
    hashes := [] }

/-- state.py `RealmState`: the realm state store plus the shared desync
sample list `_desync`.  `ids` is the key set of the `states` dict. -/
structure RealmState where
  ids : List Nat
  states : Nat → State
  desyncList : List Int

/-- state.py `RealmState.desync` getter: arithmetic mean of the stored
samples, or 0 when the list is empty (the `ZeroDivisionError` path). -/
def desync_estimate (rs : RealmState) : ℚ :=
  if rs.desyncList = [] then 0
  else ((rs.desyncList.map (fun d => (d : ℚ))).sum) / rs.desyncList.length

/-- state.py `RealmState.desync` setter: `self._desync = self._desync[:99] + [value]`. -/
def desync_set (l : List Int) (value : Int) : List Int :=
  l.take 99 ++ [value]

/-! ### download.py: the worker's outcome tuple -/

/-- deals.py / download.py: an auction's item descriptor.  Optional dict
keys are `Option` fields; `bonus_lists` and `modifiers` are read with
`.get(key, [])`, so a missing key is the empty list. -/
structure Modifier where
  mtype : Int
  value : Int
deriving DecidableEq, Repr

structure ItemDesc where
  id : Nat
  pet_species_id : Option Nat
  pet_quality_id : Option Nat
  pet_breed_id : Option Nat
  pet_level : Option Nat
  bonus_lists : List Nat
  modifiers : List Modifier
deriving DecidableEq, Repr

/-- An auction as returned by the remote feed.  `bid` is read
unconditionally by `auction_price_get` as the final fallback, so it is a
required field.  `gsa_item_level` / `gsa_item_suffix` are the cached
resolution fields written by deals.py (6.1.1). -/
structure Auction where
  id : Nat
  quantity : Int
  unit_price : Option Int
  buyout : Option Int
  bid : Int
  item : ItemDesc
  gsa_item_level : Option Int
  gsa_item_suffix : Option String
deriving DecidableEq, Repr

/-- The `{"items": ..., "pets": ...}` pair of indexes used both for the
auction index and for the returned deals (dicts of lists). -/
structure Deals where
  items : List (Nat × List Auction)
  pets : List (Nat × List Auction)
deriving DecidableEq, Repr

def Deals.empty : Deals := { items := [], pets := [] }

/-- The worker's return tuple
`(status, error, auctions_with_deals, desync, last_modified, data_hash)`. -/
structure Outcome where
  status : Int
  error : String
  deals : Deals
  desync : Option Int
  last_modified : Option ℚ
  data_hash : Option Nat
deriving DecidableEq, Repr

/-! ### results.py: the result watcher (reconciler) step -/

/-- Which branch of the result watcher ran, mirroring its logging calls. -/
inductive REvent where
  | staleRepeat : REvent
  | newData : REvent
  | errorBranch : String → REvent
  | quotaTagged : REvent
  | unmodified : REvent
deriving DecidableEq, Repr

structure StepOut where
  rstate : State
  desyncList : List Int
  sink : Bool
  event : REvent
deriving Repr

/-- results.py `result_watcher`, lines 52-117: handling of one completed
outcome for one realm.  The guard on line 64 is literally
`STATE_NEW_DATA and data_hash in hashes`: `STATE_NEW_DATA` is the integer
constant 3, and a Python `int` is truthy exactly when it is nonzero, so the
guard is modelled as `STATE_NEW_DATA ≠ 0 ∧ data_hash ∈ hashes`.  In the
NEW_DATA branch the worker always supplies a timestamp (see
`download_newdata_metadata` below), so the `getD` default is never
observed on worker-produced outcomes.  `sink` records whether the deal
callback was invoked. -/
def result_watcher_step (s : State) (dl : List Int) (o : Outcome) (now : ℚ) : StepOut :=
  if STATE_NEW_DATA ≠ 0 ∧ o.data_hash ∈ s.hashes then
    { rstate := { s with status := STATE_READY, last_checked := now }
      desyncList := dl
      sink := false
      event := .staleRepeat }
  else if o.status = STATE_NEW_DATA then
    { rstate := { s with
        hashes := s.hashes ++ [o.data_hash]
        last_modified := o.last_modified.getD s.last_modified
        status := STATE_NEW_DATA
        last_checked := now }
      desyncList := match o.desync with
        | some d => desync_set dl d
        | none => dl
      sink := true
      event := .newData }
  else if o.status = STATE_ERROR then
    { rstate := { s with status := STATE_READY, last_checked := now }
      desyncList := dl
      sink := false
      event := .errorBranch o.error }
  else if o.status = STATE_ERROR_QUOTA then
    { rstate := { s with status := STATE_ERROR_QUOTA, last_checked := now }
      desyncList := dl
      sink := false
      event := .quotaTagged }
  else
    { rstate := { s with status := STATE_READY, last_checked := now }
      desyncList := dl
      sink := false
      event := .unmodified }

/-! ### scheduler.py: admission control -/

/-- Pointwise update of the realm store's `states` function. -/
def updateState (f : Nat → State) (r : Nat) (s : State) : Nat → State :=
  fun i => if i = r then s else f i

/-- scheduler.py `should_connected_realm_be_queued`, lines 160-163: the
loop `for cr in state.states` that resets every ERROR_QUOTA-tagged realm
back to READY.  The dict's key set is `ids`. -/
def resetQuota (ids : List Nat) (f : Nat → State) : Nat → State :=
  fun i =>
    if i ∈ ids ∧ (f i).status = STATE_ERROR_QUOTA then
      { f i with status := STATE_READY }
    else f i

/-- scheduler.py `should_connected_realm_be_queued`.  `now` is the wall
clock on entry; when the quota brake engages, the busy-wait
`while (utcnow - last_checked).total_seconds() < 15: sleep(0.5)` is
modelled as the clock advancing to `max now (last_checked + 15)`.  Returns
the (possibly quota-reset) store, the clock after any wait, and the
admission decision.  `desync` is the current `state.desync` estimate. -/
def should_connected_realm_be_queued (ids : List Nat) (states : Nat → State)
    (desync : ℚ) (connected_realm : Nat) (now : ℚ) :
    (Nat → State) × ℚ × Bool :=
  let realm_state := states connected_realm
  let wait := realm_state.status = STATE_ERROR_QUOTA
  let states1 := if wait then resetQuota ids states else states
  let now1 := if wait then max now (realm_state.last_checked + 15) else now
  if (states1 connected_realm).status ≠ STATE_READY then (states1, now1, false)
  else if now1 + desync - (states1 connected_realm).last_modified < 60 * 60 - 9 then
    (states1, now1, false)
  else (states1, now1, true)

/-- scheduler.py `schedule`, lines 58-77, body of the per-realm loop: a
realm that is admitted is submitted to the pool and marked SCHEDULED, and
recorded in the submission list. -/
def scheduleStep (ids : List Nat) (desync : ℚ)
    (acc : (Nat → State) × ℚ × List Nat) (realm : Nat) :
    (Nat → State) × ℚ × List Nat :=
  let sq := should_connected_realm_be_queued ids acc.1 desync realm acc.2.1
  if sq.2.2 then
    (updateState sq.1 realm { sq.1 realm with status := STATE_SCHEDULED },
     sq.2.1, acc.2.2 ++ [realm])
  else (sq.1, sq.2.1, acc.2.2)

/-- scheduler.py `schedule`, lines 58-77: one pass of the scheduling loop
over the (already shuffled) realm order; the returned list records this
pass's submissions in order.  Pool creation, the API liveness probe and
submission failure handling do not affect admission decisions and are not
modelled. -/
def scheduleTick (ids : List Nat) (order : List Nat) (states : Nat → State)
    (desync : ℚ) (now : ℚ) : (Nat → State) × ℚ × List Nat :=
  order.foldl (scheduleStep ids desync) (states, now, [])

/-! ### helpers.py: auction_price_get -/

/-- helpers.py `auction_price_get`: `unit_price` if present, else `buyout`
if present, else `bid`. -/
def auction_price_get (auction : Auction) : Int :=
  match auction.unit_price with
  | some p => p
  | none =>
    match auction.buyout with
    | some b => b
    | none => auction.bid

/-! ### items.py: item-level resolution via curves

The opaque index table `z` of local_data maps as:
z[0]=item_level z[1]=item z[2]=level z[3]=id z[4]=type z[5]=points
z[6]=bonus_lists z[7]=modifiers z[8]=curveId z[9]=value z[10]=playerLevel
z[11]=itemLevel z[12]=name. -/

/-- items.json entry: `item_level` may be absent (the inner KeyError). -/
structure ItemInfo where
  item_level : Option Int
deriving DecidableEq, Repr

/-- bonuses.json entry: optional `curveId`, flat `level` delta, suffix `name`. -/
structure BonusInfo where
  curveId : Option Nat
  level : Option Int
  name : Option String
deriving DecidableEq, Repr

/-- item-curves.json sample point: `playerLevel` -> `itemLevel`. -/
structure CurvePoint where
  playerLevel : Int
  itemLevel : Int
deriving DecidableEq, Repr

structure Curve where
  points : List CurvePoint
deriving DecidableEq, Repr

/-- The three static databases read by `get_item_from_db`,
`get_bonus_from_db` and `get_curve_from_db`; a lookup miss there is a
Python `KeyError`. -/
structure GsaDb where
  items : List (Nat × ItemInfo)
  bonuses : List (Nat × BonusInfo)
  curves : List (Nat × Curve)
deriving Repr

/-- Python `round` (and numpy rounding) rounds halves to the nearest even
integer. -/
def roundHalfEven (q : ℚ) : Int :=
  let f := ⌊q⌋
  let r := q - f
  if r < 1 / 2 then f
  else if 1 / 2 < r then f + 1
  else if f % 2 = 0 then f else f + 1

/-- Piecewise-linear interpolation over consecutive sample points of a
sorted list, `none` when `x` lies outside the sampled domain or there are
fewer than two points (the cases where scipy's `interp1d` raises). -/
def interpSeg : List (ℚ × ℚ) → ℚ → Option ℚ
  | [], _ => none
  | [_], _ => none
  | (x0, y0) :: (x1, y1) :: rest, x =>
    if x < x0 then none
    else if x ≤ x1 then some (y0 + (x - x0) * ((y1 - y0) / (x1 - x0)))
    else interpSeg ((x1, y1) :: rest) x

/-- items.py `iii`, lines 85-91: evaluate a curve at the player level.
`interp1d` sorts its input by x; on success the result is rounded with
`int(round(...))`.  On an interpolation exception the fallback is
`dbc['points'][-1]['itemLevel']`, the last *unsorted* sample; with an
empty point list even the fallback raises (`IndexError`), modelled as
`none`.  Curves with duplicate x samples are outside the model. -/
def curveLevel (c : Curve) (plv : Int) : Option Int :=
  let pts := (c.points.map (fun p => ((p.playerLevel : ℚ), (p.itemLevel : ℚ)))).insertionSort
    (fun a b => a.1 ≤ b.1)
  match interpSeg pts (plv : ℚ) with
  | some y => some (roundHalfEven y)
  | none =>
    match c.points.getLast? with
    | some p => some p.itemLevel
    | none => none

/-- items.py `iii`, inner body of the scaling loop for one bonus id:
missing bonus id or absent `curveId` key contribute nothing; a missing
curve id is an uncaught `KeyError` (`none`); a positive candidate level
replaces the accumulator. -/
def scalingBonus (db : GsaDb) (plv : Int) (i0 : Int) (bonus_id : Nat) : Option Int :=
  match db.bonuses.lookup bonus_id with
  | none => some i0
  | some dbb =>
    match dbb.curveId with
    | none => some i0
    | some cid =>
      match db.curves.lookup cid with
      | none => none
      | some dbc =>
        match curveLevel dbc plv with
        | none => none
        | some nl => some (if nl > 0 then nl else i0)

def scalingBonuses (db : GsaDb) (plv : Int) : List Nat → Int → Option Int
  | [], i => some i
  | b :: bs, i =>
    match scalingBonus db plv i b with
    | none => none
    | some i1 => scalingBonuses db plv bs i1

/-- items.py `iii`, lines 74-93: the loop over `modifiers`; only modifiers
of type 9 with a nonempty `bonus_lists` trigger curve evaluation at the
modifier's `value` (the player level). -/
def scalingModifiers (db : GsaDb) (item : ItemDesc) : List Modifier → Int → Option Int
  | [], i => some i
  | m :: ms, i =>
    if m.mtype = 9 ∧ item.bonus_lists.length > 0 then
      match scalingBonuses db m.value item.bonus_lists i with
      | none => none
      | some i1 => scalingModifiers db item ms i1
    else scalingModifiers db item ms i

/-- items.py `iii`, lines 95-104: sum the flat `level` deltas over all
bonus ids and capture the last `name` (suffix); a missing bonus id
contributes nothing. -/
def flatBonuses (db : GsaDb) (bs : List Nat) : Int × String :=
  bs.foldl
    (fun acc bonus_id =>
      match db.bonuses.lookup bonus_id with
      | none => acc
      | some dbb =>
        (acc.1 + dbb.level.getD 0, dbb.name.getD acc.2))
    (0, "")

/-- items.py `iii` (6.1.1): resolve an auction's effective item level and
suffix.  `none` models a `KeyError`/`IndexError` escaping `iii` (missing
curve id, or an empty curve hit by the interpolation fallback). -/
def iii (db : GsaDb) (a : Auction) : Option (Int × String) :=
  match db.items.lookup a.item.id with
  | none => some (0, "")
  | some dbi =>
    match dbi.item_level with
    | none => some (0, "")
    | some base =>
      match scalingModifiers db a.item a.item.modifiers base with
      | none => none
      | some i1 =>
        let fl := flatBonuses db a.item.bonus_lists
        some (if fl.1 ≠ 0 then i1 + fl.1 else i1, fl.2)

/-! ### configuration: shopping-list entries -/

/-- An `ilvl` filter value from the YAML configuration: either a scalar or
a list of levels (deals.py 6.1.1 accepts both). -/
inductive IlvlFilter where
  | int : Int → IlvlFilter
  | list : List Int → IlvlFilter
deriving DecidableEq, Repr

/-- Python `item_data['ilvl'] != 0`: an int compares numerically, a list
is never equal to the int 0. -/
def IlvlFilter.nonzero : IlvlFilter → Bool
  | .int n => n ≠ 0
  | .list _ => true

structure ItemCfg where
  budget : Int
  ilvl : Option IlvlFilter
deriving DecidableEq, Repr

structure PetCfg where
  budget : Int
  quality : Option (List Nat)
  breed : Option (List Nat)
  level : Option Nat
deriving DecidableEq, Repr

/-- One realm's shopping list: the `items` / `pets` dicts. -/
structure RealmConfig where
  items : List (Nat × ItemCfg)
  pets : List (Nat × PetCfg)
deriving Repr

/-! ### deals.py (6.1.1): find_deals -/

/-- deals.py (6.1.1) lines 39-59, decision and enrichment for one item
auction: price-over-nonzero-budget excludes; a configured nonzero `ilvl`
filter resolves the level via `iii` (a `KeyError` from `iii` escapes) and
excludes non-matches; every kept auction is returned with the cached
`gsa_item_level` / `gsa_item_suffix` fields populated (recomputed only
when absent). -/
def itemDecision (db : GsaDb) (item_data : ItemCfg) (auction : Auction) :
    Except String (Option Auction) :=
  if item_data.budget > 0 ∧ auction_price_get auction > item_data.budget then
    Except.ok none
  else
    match item_data.ilvl with
    | some f =>
      if f.nonzero then
        match iii db auction with
        | none => Except.error "KeyError"
        | some lv =>
          let auction1 := { auction with
            gsa_item_level := some lv.1, gsa_item_suffix := some lv.2 }
          match f with
          | .int n =>
            if n ≠ lv.1 then Except.ok none else Except.ok (some auction1)
          | .list l =>
            if lv.1 ∉ l then Except.ok none else Except.ok (some auction1)
      else
        if auction.gsa_item_level.isSome ∧ auction.gsa_item_suffix.isSome then
          Except.ok (some auction)
        else
          match iii db auction with
          | none => Except.error "KeyError"
          | some lv =>
            Except.ok (some { auction with
              gsa_item_level := some lv.1, gsa_item_suffix := some lv.2 })
    | none =>
      if auction.gsa_item_level.isSome ∧ auction.gsa_item_suffix.isSome then
        Except.ok (some auction)
      else
        match iii db auction with
        | none => Except.error "KeyError"
        | some lv =>
          Except.ok (some { auction with
            gsa_item_level := some lv.1, gsa_item_suffix := some lv.2 })

/-- Exact-level check, the last guard of the pet loop body (deals.py
lines 80-82). -/
def petDecisionLevel (pet_data : PetCfg) (auction : Auction) : Except String Bool :=
  match pet_data.level with
  | some lv =>
    match auction.item.pet_level with
    | none => Except.error "KeyError: pet_level"
    | some al =>
      if al ≠ lv then Except.ok false else Except.ok true
  | none => Except.ok true

/-- Breed-set check followed by the level check (deals.py lines 76-82). -/
def petDecisionBreed (pet_data : PetCfg) (auction : Auction) : Except String Bool :=
  match pet_data.breed with
  | some bs =>
    match auction.item.pet_breed_id with
    | none => Except.error "KeyError: pet_breed_id"
    | some b =>
      if b ∉ bs then Except.ok false
      else petDecisionLevel pet_data auction
  | none => petDecisionLevel pet_data auction

/-- deals.py (5.6.0/6.1.1) lines 61-84, decision for one pet auction:
price-over-nonzero-budget, then quality set, breed set and exact level,
each applied only when configured.  Reading a pet field that the auction
lacks is a `KeyError`. -/
def petDecision (pet_data : PetCfg) (auction : Auction) : Except String Bool :=
  if pet_data.budget > 0 ∧ auction_price_get auction > pet_data.budget then
    Except.ok false
  else
    match pet_data.quality with
    | some qs =>
      match auction.item.pet_quality_id with
      | none => Except.error "KeyError: pet_quality_id"
      | some q =>
        if q ∉ qs then Except.ok false
        else petDecisionBreed pet_data auction
    | none => petDecisionBreed pet_data auction

instance {ε α : Type} [DecidableEq ε] [DecidableEq α] : DecidableEq (Except ε α) :=
  fun x y =>
    match x, y with
    | .error e1, .error e2 =>
      if h : e1 = e2 then .isTrue (by rw [h]) else .isFalse (fun hh => by cases hh; exact h rfl)
    | .error e1, .ok a2 => .isFalse (fun hh => by cases hh)
    | .ok a1, .error e2 => .isFalse (fun hh => by cases hh)
    | .ok a1, .ok a2 =>
      if h : a1 = a2 then .isTrue (by rw [h]) else .isFalse (fun hh => by cases hh; exact h rfl)

/-- Filter a list through a fallible keep/transform decision, propagating
the first error (a Python exception escaping the loop). -/
def exceptFilterMap (p : α → Except String (Option β)) : List α → Except String (List β)
  | [] => Except.ok []
  | a :: rest =>
    match p a with
    | Except.error e => Except.error e
    | Except.ok none => exceptFilterMap p rest
    | Except.ok (some b) =>
      match exceptFilterMap p rest with
      | Except.error e => Except.error e
      | Except.ok bs => Except.ok (b :: bs)

/-- Filter through a fallible boolean predicate. -/
def exceptFilter (p : α → Except String Bool) (l : List α) : Except String (List α) :=
  exceptFilterMap (fun a =>
    match p a with
    | Except.error e => Except.error e
    | Except.ok b => Except.ok (if b then some a else none)) l

/-- deals.py (6.1.1) lines 37-59: the loop over the configured item
entries; `deals['items']` is a defaultdict, so an entry appears only when
at least one auction was appended. -/
def itemsLoop (db : GsaDb) (cfgs : List (Nat × ItemCfg)) (auctions : Deals) :
    Except String (List (Nat × List Auction)) :=
  match cfgs with
  | [] => Except.ok []
  | (iid, icfg) :: rest =>
    match exceptFilterMap (itemDecision db icfg) ((auctions.items.lookup iid).getD []) with
    | Except.error e => Except.error e
    | Except.ok kept =>
      match itemsLoop db rest auctions with
      | Except.error e => Except.error e
      | Except.ok restOut =>
        Except.ok (if kept = [] then restOut else (iid, kept) :: restOut)

/-- deals.py lines 62-84: the loop over the configured pet entries. -/
def petsLoop (cfgs : List (Nat × PetCfg)) (auctions : Deals) :
    Except String (List (Nat × List Auction)) :=
  match cfgs with
  | [] => Except.ok []
  | (sid, pcfg) :: rest =>
    match exceptFilter (petDecision pcfg) ((auctions.pets.lookup sid).getD []) with
    | Except.error e => Except.error e
    | Except.ok kept =>
      match petsLoop rest auctions with
      | Except.error e => Except.error e
      | Except.ok restOut =>
        Except.ok (if kept = [] then restOut else (sid, kept) :: restOut)

/-- deals.py (6.1.1) `find_deals`: `shopping[connected_realm_id]` raises
`KeyError` when the realm is not configured. -/
def find_deals (db : GsaDb) (shopping : List (Nat × RealmConfig))
    (connected_realm_id : Nat) (auctions : Deals) : Except String Deals :=
  match shopping.lookup connected_realm_id with
  | none => Except.error "KeyError: connected_realm_id"
  | some realm_config =>
    match itemsLoop db realm_config.items auctions with
    | Except.error e => Except.error e
    | Except.ok di =>
      match petsLoop realm_config.pets auctions with
      | Except.error e => Except.error e
      | Except.ok dp => Except.ok { items := di, pets := dp }

/-! ### deals.py (5.6.0): the find_deals variant called by download.py -/

/-- deals.py (5.6.0) lines 39-46, item decision: no cached enrichment;
the `ilvl` guard compares `item_data['ilvl'] != ilvl` directly, so a
list-valued filter never equals the resolved int and always excludes. -/
def itemDecisionV5 (db : GsaDb) (item_data : ItemCfg) (auction : Auction) :
    Except String Bool :=
  if item_data.budget > 0 ∧ auction_price_get auction > item_data.budget then
    Except.ok false
  else
    match item_data.ilvl with
    | some f =>
      if f.nonzero then
        match iii db auction with
        | none => Except.error "KeyError"
        | some lv =>
          match f with
          | .int n => Except.ok (n = lv.1)
          | .list _ => Except.ok false
      else Except.ok true
    | none => Except.ok true

def itemsLoopV5 (db : GsaDb) (cfgs : List (Nat × ItemCfg)) (auctions : Deals) :
    Except String (List (Nat × List Auction)) :=
  match cfgs with
  | [] => Except.ok []
  | (iid, icfg) :: rest =>
    match exceptFilter (itemDecisionV5 db icfg) ((auctions.items.lookup iid).getD []) with
    | Except.error e => Except.error e
    | Except.ok kept =>
      match itemsLoopV5 db rest auctions with
      | Except.error e => Except.error e
      | Except.ok restOut =>
        Except.ok (if kept = [] then restOut else (iid, kept) :: restOut)

/-- deals.py (5.6.0) `find_deals(realm_config, auctions)`. -/
def find_deals_v5 (db : GsaDb) (realm_config : RealmConfig) (auctions : Deals) :
    Except String Deals :=
  match itemsLoopV5 db realm_config.items auctions with
  | Except.error e => Except.error e
  | Except.ok di =>
    match petsLoop realm_config.pets auctions with
    | Except.error e => Except.error e
    | Except.ok dp => Except.ok { items := di, pets := dp }

/-! ### download.py (5.6.0): the fetch-and-filter worker -/

/-- pets.py: the sentinel "pet cage" item id. -/
def PET_CAGE_ID : Nat := 82800

/-- Append to a dict-of-lists entry, creating the key at the end on first
occurrence (Python dict insertion order). -/
def assocAppend (l : List (Nat × List Auction)) (k : Nat) (a : Auction) :
    List (Nat × List Auction) :=
  match l with
  | [] => [(k, [a])]
  | (k1, vs) :: rest =>
    if k1 = k then (k1, vs ++ [a]) :: rest
    else (k1, vs) :: assocAppend rest k a

/-- download.py `index_auctions_into_items_pets`: one linear pass indexing
auctions by item id, and pet-cage auctions by `pet_species_id` (whose
absence on a pet cage is a `KeyError`). -/
def index_auctions_into_items_pets (auctions : List Auction) : Except String Deals :=
  auctions.foldlM
    (fun idx a =>
      if a.item.id = PET_CAGE_ID then
        match a.item.pet_species_id with
        | none => Except.error "KeyError: pet_species_id"
        | some sid => Except.ok { idx with pets := assocAppend idx.pets sid a }
      else Except.ok { idx with items := assocAppend idx.items a.item.id a })
    Deals.empty

/-- The outcome of the remote `api.wow.auctions` call (the API client is
an external collaborator): a payload bundle, a typed "not modified"
signal (`BlizzardAPIUnmodifiedData`), a rate-limit signal
(`BlizzardAPIQuotaException`), a transport error
(`BlizzardAPIException`, carrying `repr(ex)`), or any other exception
(carrying the `f"{ex} {format_exc()}"` text). -/
inductive FetchResult where
  | success (auctions : List Auction) (last_modified : ℚ) (data_hash : Nat) (desync : Int)
  | unmodified
  | quota
  | apiError (msg : String)
  | otherError (msg : String)
deriving Repr

/-- Substring scan: does `needle` occur contiguously in the haystack? -/
def listHasInfix (needle : List Char) : List Char → Bool
  | [] => needle.isEmpty
  | c :: rest => needle.isPrefixOf (c :: rest) || listHasInfix needle rest

/-- download.py line 70: `"ConnectionResetError" in repr(ex)`. -/
def mentionsConnReset (s : String) : Bool :=
  listHasInfix "ConnectionResetError".toList s.toList

/-- download.py `download_auction_house_and_find_deals` (5.6.0).  `fetch`
models the remote call as a function of the If-Modified-Since timestamp
actually sent, `modified_timestamp + 10 minutes`.  Every path returns an
outcome tuple; no exception escapes. -/
def download_auction_house_and_find_deals (db : GsaDb) (shopping_list : RealmConfig)
    (modified_timestamp : ℚ) (fetch : ℚ → FetchResult) : Outcome :=
  match fetch (modified_timestamp + 10 * 60) with
  | .success aucs lm h d =>
    match (index_auctions_into_items_pets aucs).bind (find_deals_v5 db shopping_list) with
    | Except.ok deals =>
      { status := STATE_NEW_DATA, error := "", deals := deals
        desync := some d, last_modified := some lm, data_hash := some h }
    | Except.error msg =>
      { status := STATE_ERROR, error := msg, deals := Deals.empty
        desync := some d, last_modified := some lm, data_hash := some h }
  | .quota =>
    { status := STATE_ERROR_QUOTA, error := "", deals := Deals.empty
      desync := none, last_modified := none, data_hash := none }
  | .unmodified =>
    { status := STATE_SCHEDULED, error := "", deals := Deals.empty
      desync := none, last_modified := none, data_hash := none }
  | .apiError msg =>
    { status := STATE_ERROR
      error := if mentionsConnReset msg then "" else msg
      deals := Deals.empty
      desync := none, last_modified := none, data_hash := none }
  | .otherError msg =>
    { status := STATE_ERROR, error := msg, deals := Deals.empty
      desync := none, last_modified := none, data_hash := none }

/-! ### callbacks.py (5.6.0): the commodity merger -/

def isCommodity (a : Auction) : Bool := a.unit_price.isSome

/-- callbacks.py lines 250-261, inner dict `tmp[item_id]`: first
occurrence at a price point is kept as the representative, a repeat sums
its quantity into the representative, a new price point is inserted at
the end (dict insertion order). -/
def priceInsert (prices : List (Int × Auction)) (p : Int) (c : Auction) :
    List (Int × Auction) :=
  match prices with
  | [] => [(p, c)]
  | (p1, rep) :: rest =>
    if p1 = p then (p1, { rep with quantity := rep.quantity + c.quantity }) :: rest
    else (p1, rep) :: priceInsert rest p c

/-- callbacks.py lines 246-261: insert one commodity into `tmp`
(`defaultdict` keyed by item id, then by unit price). -/
def groupInsert (tmp : List (Nat × List (Int × Auction))) (c : Auction) :
    List (Nat × List (Int × Auction)) :=
  match tmp with
  | [] => [(c.item.id, [(c.unit_price.getD 0, c)])]
  | (k, prices) :: rest =>
    if k = c.item.id then (k, priceInsert prices (c.unit_price.getD 0) c) :: rest
    else (k, prices) :: groupInsert rest c

/-- callbacks.py line 264: `sorted(list(tmp[commodity]), reverse=True)` —
the price points of one item in descending order. -/
def sortPricesDesc (prices : List (Int × Auction)) : List (Int × Auction) :=
  prices.insertionSort (fun a b => b.1 ≤ a.1)

/-- callbacks.py lines 246-261: the whole smashing loop building `tmp`. -/
def mergedCommodities (deals_commodities : List Auction) :
    List (Nat × List (Int × Auction)) :=
  deals_commodities.foldl groupInsert []

/-- callbacks.py lines 263-265: emit each item's price points in
descending order, items in first-occurrence order. -/
def flattenGroups (tmp : List (Nat × List (Int × Auction))) : List Auction :=
  (tmp.map (fun g => (sortPricesDesc g.2).map Prod.snd)).flatten

/-- callbacks.py `smash_commodities_together`: non-commodities are
collected into `out` during the partition pass (lines 237-241), the
merged commodity groups are appended after them (lines 263-265). -/
def smash_commodities_together (deals_items : List Auction) : List Auction :=
  let deals_commodities := deals_items.filter isCommodity
  let out := deals_items.filter (fun a => ¬ isCommodity a)
  out ++ flattenGroups (mergedCommodities deals_commodities)

/-! ### Concrete fixtures used by witnesses and counterexamples -/

/-- An item descriptor with no pet fields, bonuses or modifiers. -/
def plainItem (iid : Nat) : ItemDesc :=
  { id := iid, pet_species_id := none, pet_quality_id := none
    pet_breed_id := none, pet_level := none, bonus_lists := [], modifiers := [] }

/-- A commodity auction: item `iid` at unit price `p`, quantity `q`. -/
def mkCommodity (aid iid : Nat) (p q : Int) : Auction :=
  { id := aid, quantity := q, unit_price := some p, buyout := none, bid := 0
    item := plainItem iid, gsa_item_level := none, gsa_item_suffix := none }

/-- A non-commodity auction: item `iid` with buyout `b`. -/
def mkBuyout (aid iid : Nat) (b : Int) : Auction :=
  { id := aid, quantity := 1, unit_price := none, buyout := some b, bid := 0
    item := plainItem iid, gsa_item_level := none, gsa_item_suffix := none }

def emptyDb : GsaDb := { items := [], bonuses := [], curves := [] }

def emptyCfg : RealmConfig := { items := [], pets := [] }

/-- Fixture for C1/C2: a realm state that has already seen hash 555. -/
def seenState : State :=
  { id := 7, status := STATE_FINISHED, last_modified := 99000
    last_checked := 99500, hashes := [some 555] }

/-- Fixture for C2: a completed ERROR outcome that still carries the
already-seen content hash (fetch succeeded, indexing/matching failed). -/
def errOutcomeSeenHash : Outcome :=
  { status := STATE_ERROR, error := "boom", deals := Deals.empty
    desync := none, last_modified := some 99990, data_hash := some 555 }

/-- Fixture for C1: a fresh NEW_DATA outcome with hash 777. -/
def freshOutcome : Outcome :=
  { status := STATE_NEW_DATA, error := "", deals := Deals.empty
    desync := some 2, last_modified := some 99990, data_hash := some 777 }

/-- Fixture for C4: realm 1 is quota-tagged with `last_checked` 4990,
realm 2 is READY and long overdue. -/
def quotaStates : Nat → State :=
  fun i =>
    if i = 1 then
      { id := 1, status := STATE_ERROR_QUOTA, last_modified := 5000
        last_checked := 4990, hashes := [] }
    else
      { id := 2, status := STATE_READY, last_modified := 0
        last_checked := 0, hashes := [] }

/-- Fixture for C3: realm 2 is SCHEDULED (fetch outstanding), every other
realm is READY and long overdue. -/
def c3states : Nat → State :=
  fun i =>
    if i = 2 then
      { id := 2, status := STATE_SCHEDULED, last_modified := 0
        last_checked := 0, hashes := [] }
    else
      { id := 1, status := STATE_READY, last_modified := 0
        last_checked := 0, hashes := [] }

/-- The boundedness property C9 ascribes to `seenHashes`: some fixed
capacity is never exceeded across reconciler steps (stated as closure of
the bound under one step, together with the empty initial collection). -/
def HashesBounded : Prop :=
  ∃ cap : Nat, 0 < cap ∧
    ∀ (s : State) (dl : List Int) (o : Outcome) (now : ℚ),
      s.hashes.length ≤ cap →
      ((result_watcher_step s dl o now).rstate.hashes).length ≤ cap

/-- Fixture for C9: a realm state holding `n` distinct hashes. -/
def stateWithHashes (n : Nat) : State :=
  { id := 1, status := STATE_FINISHED, last_modified := 0
    last_checked := 0, hashes := (List.range n).map some }

/-- Fixture for C9: a fresh NEW_DATA outcome whose hash is `n`. -/
def freshHashOutcome (n : Nat) : Outcome :=
  { status := STATE_NEW_DATA, error := "", deals := Deals.empty
    desync := none, last_modified := some 1, data_hash := some n }

/-- Fixture for C6: item 100 has base level 20; bonus 41 carries curve 9
with sample points (1, 10) and (10, 100); bonus 42 carries curve 8 with
points (1, -20) and (10, -2) (never positive); bonus 43 carries curve 7
with points (1, 30) and (10, 300); bonus 51 is a flat +5 `level` delta
named "of A", bonus 52 a flat +7 delta named "of B"; bonus 53 is -5;
bonus 60 carries the missing curve 999. -/
def c6db : GsaDb :=
  { items := [(100, { item_level := some 20 })]
    bonuses :=
      [(41, { curveId := some 9, level := none, name := none }),
       (42, { curveId := some 8, level := none, name := none }),
       (51, { curveId := none, level := some 5, name := some "of A" }),
       (52, { curveId := none, level := some 7, name := some "of B" }),
       (53, { curveId := none, level := some (-5), name := none }),
       (60, { curveId := some 999, level := none, name := none }),
       (43, { curveId := some 7, level := none, name := none })]
    curves :=
      [(9, { points := [{ playerLevel := 1, itemLevel := 10 },
                        { playerLevel := 10, itemLevel := 100 }] }),
       (8, { points := [{ playerLevel := 1, itemLevel := -20 },
                        { playerLevel := 10, itemLevel := -2 }] }),
       (7, { points := [{ playerLevel := 1, itemLevel := 30 },
                        { playerLevel := 10, itemLevel := 300 }] })] }

/-- An item-100 descriptor with a type-9 (scaling) modifier at player
level `plv` and the given bonus list. -/
def c6item (plv : Int) (bonuses : List Nat) : ItemDesc :=
  { id := 100, pet_species_id := none, pet_quality_id := none
    pet_breed_id := none, pet_level := none, bonus_lists := bonuses
    modifiers := [{ mtype := 9, value := plv }] }

/-- An auction on item 100 carrying `c6item plv bonuses`. -/
def c6auction (plv : Int) (bonuses : List Nat) : Auction :=
  { id := 1, quantity := 1, unit_price := none, buyout := some 10, bid := 0
    item := c6item plv bonuses, gsa_item_level := none, gsa_item_suffix := none }

/-- Fixture for C8: a shopping list whose single item entry has budget 0
(no price limit) and an item-level filter of 5. -/
def c8cfg : ItemCfg := { budget := 0, ilvl := some (.int 5) }

def c8shopping : List (Nat × RealmConfig) :=
  [(1, { items := [(100, c8cfg)], pets := [] })]

/-- Fixture for C8: the candidate index holds one auction for item 100. -/
def c8auctions : Deals :=
  { items := [(100, [mkBuyout 11 100 400])], pets := [] }

/-- Fixture for C8: an item entry with a gold budget and no level filter. -/
def c8okCfg : ItemCfg := { budget := 500000, ilvl := none }

/-- Fixture for C8: a pet entry filtering on quality set only. -/
def c8pcfg : PetCfg := { budget := 0, quality := some [3], breed := none, level := none }

/-- Fixture for C8: a caged-pet auction of species 50 with the given
quality, breed and level. -/
def petAuction (q b lv : Nat) : Auction :=
  { id := 21, quantity := 1, unit_price := none, buyout := some 900, bid := 0
    item := { id := PET_CAGE_ID, pet_species_id := some 50, pet_quality_id := some q
              pet_breed_id := some b, pet_level := some lv
              bonus_lists := [], modifiers := [] }
    gsa_item_level := none, gsa_item_suffix := none }

/-- Fixture for C8: a single-pet-entry shopping list and its candidates. -/
def c8petShopping : List (Nat × RealmConfig) :=
  [(1, { items := [], pets := [(50, c8pcfg)] })]

def c8petAuctions : Deals :=
  { items := [], pets := [(50, [petAuction 3 5 25])] }

/-- Does a resolved item level satisfy an `ilvl` filter (scalar equality
or list membership, as deals.py 6.1.1 checks it)? -/
def ilvlMatches : IlvlFilter → Int → Bool
  | .int n, x => n = x
  | .list l, x => x ∈ l

/-- Does an auction sit at commodity price point `(iid, p)`? -/
def matchesPricePoint (iid : Nat) (p : Int) (a : Auction) : Bool :=
  a.item.id = iid ∧ a.unit_price = some p

/-- The merged representative the spec describes for a price point: the
first input occurrence, with all later quantities at the same point
summed into it. -/
def mergedRep (l : List Auction) (iid : Nat) (p : Int) : Option Auction :=
  match l.filter (matchesPricePoint iid p) with
  | [] => none
  | first :: rest =>
    some { first with quantity := first.quantity + (rest.map Auction.quantity).sum }

/-- Lookup of the representative stored in `tmp` for `(iid, p)`. -/
def lookup2 (tmp : List (Nat × List (Int × Auction))) (iid : Nat) (p : Int) :
    Option Auction :=
  match tmp.lookup iid with
  | none => none
  | some prices => prices.lookup p

/-- Structural invariant of the `tmp` grouping dict: item keys are
distinct, each item's price keys are distinct, and every stored
representative carries exactly its group's item id and price. -/
def TmpInv (tmp : List (Nat × List (Int × Auction))) : Prop :=
  (tmp.map Prod.fst).Nodup ∧
  ∀ g ∈ tmp, (g.2.map Prod.fst).Nodup ∧
    ∀ pr ∈ g.2, pr.2.item.id = g.1 ∧ pr.2.unit_price = some pr.1

/-! ## Theorems -/

/-- C10: the desync sample store caps at 100 entries by evicting the most
recently stored entry, not the oldest: on a store already holding 100
samples, recording a new sample leaves positions 0-98 unchanged and
replaces only the last position, so the first 99 recorded offsets are
retained for the process lifetime and the store never exceeds 100. -/
theorem c10_desync_recent_eviction :
    (∀ (l : List Int) (v : Int), l.length = 100 →
      (desync_set l v).length = 100 ∧
      (∀ i : Nat, i < 99 → (desync_set l v)[i]? = l[i]?) ∧
      (desync_set l v)[99]? = some v) ∧
    (∀ (l : List Int) (v : Int), 99 ≤ l.length →
      (desync_set l v).take 99 = l.take 99) ∧
    (∀ (l : List Int) (v : Int), (desync_set l v).length ≤ 100) := by
  refine ⟨fun l v h => ⟨?_, fun i hi => ?_, ?_⟩, fun l v h => ?_, fun l v => ?_⟩
  · simp [desync_set, h]
  · have ht : (l.take 99).length = 99 := by simp [h]
    rw [desync_set, List.getElem?_append]
    simp [ht, hi, List.getElem?_take]
  · have ht : (l.take 99).length = 99 := by simp [h]
    rw [desync_set, List.getElem?_append]
    simp [ht]
  · have ht : (l.take 99).length = 99 := by simp [h]
    rw [desync_set, List.take_append_of_le_length (by omega), List.take_take]
    simp
  · simp only [desync_set, List.length_append, List.length_take, List.length_singleton]
    omega

/-- C10 witness: the capacity facts evaluated on a concrete full store. -/
theorem c10_desync_recent_eviction_witness :
    (desync_set (List.replicate 100 (0 : Int)) 5).length = 100 ∧
    (desync_set (List.replicate 100 (0 : Int)) 5)[99]? = some 5 ∧
    (desync_set (List.replicate 100 (0 : Int)) 5)[3]? = some 0 := by
  refine ⟨(c10_desync_recent_eviction.1 _ 5 (by simp)).1,
    (c10_desync_recent_eviction.1 _ 5 (by simp)).2.2, ?_⟩
  have h := (c10_desync_recent_eviction.1 (List.replicate 100 (0 : Int)) 5
    (by simp)).2.1 3 (by omega)
  simp at h
  simp [h]

/-- C9 counterexample: `seenHashes` admits no fixed capacity — the
reconciler's NEW_DATA branch appends unconditionally (results.py line 96,
`hashes.append(data_hash)`, on the plain list initialized in state.py
line 29), so for any claimed capacity a store already at that size grows
past it on the next fresh hash. -/
theorem c9_counterexample : ¬ HashesBounded := by
  rintro ⟨cap, hpos, hstep⟩
  have hlen : (stateWithHashes cap).hashes.length = cap := by
    simp [stateWithHashes]
  have hmem : (freshHashOutcome cap).data_hash ∉ (stateWithHashes cap).hashes := by
    simp [stateWithHashes, freshHashOutcome]
  have hres : (result_watcher_step (stateWithHashes cap) [] (freshHashOutcome cap)
      0).rstate.hashes = (stateWithHashes cap).hashes ++ [(freshHashOutcome cap).data_hash] := by
    rw [result_watcher_step, if_neg (by simp [hmem])]
    simp [freshHashOutcome]
  have h := hstep (stateWithHashes cap) [] (freshHashOutcome cap) 0 (le_of_eq hlen)
  rw [hres] at h
  simp [hlen] at h

/-- C9 amended: `seenHashes` is unbounded — a reconciler step never
evicts (the prior hash list is always a prefix of the new one), and a
fresh NEW_DATA outcome strictly appends its hash. -/
theorem c9_hashes_append_only :
    (∀ (s : State) (dl : List Int) (o : Outcome) (now : ℚ),
      ((result_watcher_step s dl o now).rstate.hashes).take s.hashes.length = s.hashes) ∧
    (∀ (s : State) (dl : List Int) (o : Outcome) (now : ℚ),
      o.status = STATE_NEW_DATA → o.data_hash ∉ s.hashes →
      (result_watcher_step s dl o now).rstate.hashes = s.hashes ++ [o.data_hash] ∧
      ((result_watcher_step s dl o now).rstate.hashes).length = s.hashes.length + 1) := by
  constructor
  · intro s dl o now
    rw [result_watcher_step]
    split_ifs <;> simp [List.take_left]
  · intro s dl o now hst hmem
    have hres : (result_watcher_step s dl o now).rstate.hashes = s.hashes ++ [o.data_hash] := by
      rw [result_watcher_step, if_neg (by simp [hmem]), if_pos hst]
    exact ⟨hres, by simp [hres]⟩

/-- C9 witness: appending the third distinct hash to a two-hash store. -/
theorem c9_hashes_append_only_witness :
    (result_watcher_step (stateWithHashes 2) [] (freshHashOutcome 2) 0).rstate.hashes
      = (stateWithHashes 2).hashes ++ [(freshHashOutcome 2).data_hash] ∧
    ((result_watcher_step (stateWithHashes 2) [] (freshHashOutcome 2) 0).rstate.hashes).length
      = (stateWithHashes 2).hashes.length + 1 :=
  c9_hashes_append_only.2 (stateWithHashes 2) [] (freshHashOutcome 2) 0 rfl (by decide)

/-- C2: the stale-repeat guard (results.py line 64) reads
`STATE_NEW_DATA and data_hash in hashes` — the truthy constant 3 instead
of the just-fetched `status` — so a completed ERROR outcome whose hash
was already seen takes the stale-repeat branch and its ERROR branch
(with the error log) is never reached, contradicting the specified
"hash-repetition check only on NEW_DATA".  Evaluation at the failing
input. -/
theorem c2_stale_guard_ignores_status :
    errOutcomeSeenHash.status = STATE_ERROR ∧
    errOutcomeSeenHash.data_hash ∈ seenState.hashes ∧
    (result_watcher_step seenState [] errOutcomeSeenHash 100003).event = REvent.staleRepeat ∧
    (result_watcher_step seenState [] errOutcomeSeenHash 100003).event
      ≠ REvent.errorBranch errOutcomeSeenHash.error ∧
    (result_watcher_step seenState [] errOutcomeSeenHash 100003).rstate.status
      = STATE_READY := by
  decide

/-- C1: feeding the reconciler two completed outcomes with the same
content hash for one realm invokes the notification sink exactly once and
advances `lastModified` exactly once: the first (fresh NEW_DATA) outcome
fires the sink and sets `lastModified`; the second outcome's
already-seen hash takes the stale-repeat branch, fires no sink, leaves
`lastModified` unchanged and re-queues the realm as READY. -/
theorem c1_same_hash_single_notification
    (s : State) (dl dl2 : List Int) (o1 o2 : Outcome) (t1 t2 : ℚ) (lm : ℚ)
    (h1 : o1.status = STATE_NEW_DATA)
    (h2 : o1.data_hash ∉ s.hashes)
    (h3 : o1.last_modified = some lm)
    (h4 : o2.data_hash = o1.data_hash) :
    (result_watcher_step s dl o1 t1).sink = true ∧
    (result_watcher_step s dl o1 t1).rstate.last_modified = lm ∧
    (result_watcher_step (result_watcher_step s dl o1 t1).rstate dl2 o2 t2).sink = false ∧
    (result_watcher_step (result_watcher_step s dl o1 t1).rstate dl2 o2 t2).rstate.last_modified
      = lm ∧
    (result_watcher_step (result_watcher_step s dl o1 t1).rstate dl2 o2 t2).rstate.status
      = STATE_READY ∧
    (result_watcher_step (result_watcher_step s dl o1 t1).rstate dl2 o2 t2).event
      = REvent.staleRepeat := by
  have hr1 : result_watcher_step s dl o1 t1 =
      { rstate := { s with
          hashes := s.hashes ++ [o1.data_hash]
          last_modified := lm
          status := STATE_NEW_DATA
          last_checked := t1 }
        desyncList := match o1.desync with
          | some d => desync_set dl d
          | none => dl
        sink := true
        event := .newData } := by
    rw [result_watcher_step, if_neg (by simp [h2]), if_pos h1, h3]
    rfl
  have hmem : o2.data_hash ∈ (result_watcher_step s dl o1 t1).rstate.hashes := by
    rw [hr1]
    simp [h4]
  have hr2 := hmem
  rw [hr1]
  refine ⟨rfl, rfl, ?_, ?_, ?_, ?_⟩ <;>
    · rw [result_watcher_step, if_pos (by rw [hr1] at hr2; exact ⟨by decide, hr2⟩)]

/-- C1 witness: the double-feed facts at a concrete fresh realm and a
concrete NEW_DATA outcome (hash 777, remote timestamp 99990). -/
theorem c1_same_hash_single_notification_witness :
    (result_watcher_step (State.init 7 100000) [] freshOutcome 100001).sink = true ∧
    (result_watcher_step (result_watcher_step (State.init 7 100000) [] freshOutcome
      100001).rstate [] freshOutcome 100002).sink = false ∧
    (result_watcher_step (result_watcher_step (State.init 7 100000) [] freshOutcome
      100001).rstate [] freshOutcome 100002).rstate.last_modified = 99990 :=
  have h := c1_same_hash_single_notification (State.init 7 100000) [] [] freshOutcome
    freshOutcome 100001 100002 99990 rfl (by decide) rfl rfl
  ⟨h.1, h.2.2.1, h.2.2.2.1⟩

/-! ### Scheduler lemmas shared by C3 and C4 -/

theorem resetQuota_last_modified (ids : List Nat) (f : Nat → State) (i : Nat) :
    (resetQuota ids f i).last_modified = (f i).last_modified := by
  rw [resetQuota]
  split_ifs <;> rfl

theorem resetQuota_of_ne (ids : List Nat) (f : Nat → State) (i : Nat)
    (h : (f i).status ≠ STATE_ERROR_QUOTA) : resetQuota ids f i = f i := by
  rw [resetQuota, if_neg]
  simp [h]

theorem resetQuota_status_ready (ids : List Nat) (f : Nat → State) (i : Nat)
    (hi : i ∈ ids) (h : (f i).status = STATE_ERROR_QUOTA) :
    (resetQuota ids f i).status = STATE_READY := by
  rw [resetQuota, if_pos ⟨hi, h⟩]

theorem sq_store_eq (ids : List Nat) (states : Nat → State) (desync : ℚ)
    (realm : Nat) (now : ℚ) :
    (should_connected_realm_be_queued ids states desync realm now).1 =
      if (states realm).status = STATE_ERROR_QUOTA then resetQuota ids states
      else states := by
  simp only [should_connected_realm_be_queued]
  split_ifs <;> rfl

theorem sq_time_eq (ids : List Nat) (states : Nat → State) (desync : ℚ)
    (realm : Nat) (now : ℚ) :
    (should_connected_realm_be_queued ids states desync realm now).2.1 =
      if (states realm).status = STATE_ERROR_QUOTA then
        max now ((states realm).last_checked + 15)
      else now := by
  simp only [should_connected_realm_be_queued]
  split_ifs <;> rfl

theorem sq_true_ready (ids : List Nat) (states : Nat → State) (desync : ℚ)
    (realm : Nat) (now : ℚ)
    (h : (should_connected_realm_be_queued ids states desync realm now).2.2 = true) :
    ((should_connected_realm_be_queued ids states desync realm now).1 realm).status
      = STATE_READY ∧
    60 * 60 - 9 ≤ (should_connected_realm_be_queued ids states desync realm now).2.1
      + desync -
      ((should_connected_realm_be_queued ids states desync realm now).1 realm).last_modified := by
  revert h
  simp only [should_connected_realm_be_queued]
  split_ifs with h1 h2 h3 <;> intro h <;> simp_all

theorem sq_preserves_scheduled (ids : List Nat) (states : Nat → State) (desync : ℚ)
    (realm : Nat) (now : ℚ) (i : Nat)
    (h : (states i).status = STATE_SCHEDULED) :
    ((should_connected_realm_be_queued ids states desync realm now).1 i).status
      = STATE_SCHEDULED := by
  rw [sq_store_eq]
  split_ifs with hq
  · rw [resetQuota_of_ne ids states i (by rw [h]; decide)]
    exact h
  · exact h

theorem sq_false_of_scheduled (ids : List Nat) (states : Nat → State) (desync : ℚ)
    (realm : Nat) (now : ℚ)
    (h : (states realm).status = STATE_SCHEDULED) :
    (should_connected_realm_be_queued ids states desync realm now).2.2 = false := by
  cases hd : (should_connected_realm_be_queued ids states desync realm now).2.2 with
  | false => rfl
  | true =>
    have hr := (sq_true_ready ids states desync realm now hd).1
    rw [sq_preserves_scheduled ids states desync realm now realm h] at hr
    exact absurd hr (by decide)

theorem scheduleStep_preserves_scheduled (ids : List Nat) (desync : ℚ)
    (acc : (Nat → State) × ℚ × List Nat) (realm : Nat) (i : Nat)
    (h : (acc.1 i).status = STATE_SCHEDULED) :
    ((scheduleStep ids desync acc realm).1 i).status = STATE_SCHEDULED := by
  rw [scheduleStep]
  split_ifs with hd
  · simp only [updateState]
    by_cases hi : i = realm
    · simp [hi]
    · simp only [if_neg hi]
      exact sq_preserves_scheduled ids acc.1 desync realm acc.2.1 i h
  · exact sq_preserves_scheduled ids acc.1 desync realm acc.2.1 i h

theorem scheduleStep_not_submitted (ids : List Nat) (desync : ℚ)
    (acc : (Nat → State) × ℚ × List Nat) (realm : Nat) (i : Nat)
    (h : (acc.1 i).status = STATE_SCHEDULED) (hm : i ∉ acc.2.2) :
    i ∉ (scheduleStep ids desync acc realm).2.2 := by
  rw [scheduleStep]
  split_ifs with hd
  · intro hmem
    rcases List.mem_append.mp hmem with hmem | hmem
    · exact hm hmem
    · have hir : i = realm := by simpa using hmem
      subst hir
      have hr := (sq_true_ready ids acc.1 desync i acc.2.1 hd).1
      rw [sq_preserves_scheduled ids acc.1 desync i acc.2.1 i h] at hr
      exact absurd hr (by decide)
  · exact hm

theorem tick_fold_scheduled (ids : List Nat) (desync : ℚ) (order : List Nat) :
    ∀ (acc : (Nat → State) × ℚ × List Nat) (i : Nat),
      (acc.1 i).status = STATE_SCHEDULED → i ∉ acc.2.2 →
      ((order.foldl (scheduleStep ids desync) acc).1 i).status = STATE_SCHEDULED ∧
      i ∉ (order.foldl (scheduleStep ids desync) acc).2.2 := by
  induction order with
  | nil => exact fun acc i h hm => ⟨h, hm⟩
  | cons realm order ih =>
    intro acc i h hm
    exact ih (scheduleStep ids desync acc realm) i
      (scheduleStep_preserves_scheduled ids desync acc realm i h)
      (scheduleStep_not_submitted ids desync acc realm i h hm)

theorem tick_fold_nodup (ids : List Nat) (desync : ℚ) (order : List Nat) :
    ∀ (acc : (Nat → State) × ℚ × List Nat),
      (∀ r ∈ acc.2.2, (acc.1 r).status = STATE_SCHEDULED) → acc.2.2.Nodup →
      (∀ r ∈ (order.foldl (scheduleStep ids desync) acc).2.2,
        ((order.foldl (scheduleStep ids desync) acc).1 r).status = STATE_SCHEDULED) ∧
      (order.foldl (scheduleStep ids desync) acc).2.2.Nodup := by
  induction order with
  | nil => exact fun acc h hn => ⟨h, hn⟩
  | cons realm order ih =>
    intro acc h hn
    refine ih (scheduleStep ids desync acc realm) ?_ ?_
    · intro r hr
      by_cases hrs : r ∈ acc.2.2
      · exact scheduleStep_preserves_scheduled ids desync acc realm r (h r hrs)
      · have hrealm : r = realm := by
          revert hr
          rw [scheduleStep]
          split_ifs with hd
          · intro hr
            rcases List.mem_append.mp hr with hr | hr
            · exact absurd hr hrs
            · simpa using hr
          · intro hr
            exact absurd hr hrs
        subst hrealm
        revert hr
        rw [scheduleStep]
        split_ifs with hd
        · intro _
          simp [updateState]
        · intro hr
          exact absurd hr hrs
    · revert hn
      rw [scheduleStep]
      split_ifs with hd
      · intro hn
        refine List.Nodup.append hn (List.nodup_singleton realm) ?_
        intro r hr hr2
        have hrr : r = realm := by simpa using hr2
        subst hrr
        have hsch := h r hr
        have hready := (sq_true_ready ids acc.1 desync r acc.2.1 hd).1
        rw [sq_preserves_scheduled ids acc.1 desync r acc.2.1 r hsch] at hready
        exact absurd hready (by decide)
      · exact fun hn => hn

/-- C3: a realm is admitted for submission only when its (possibly
quota-reset) status is READY — in particular never while SCHEDULED, so at
most one fetch is outstanding per realm (submissions of a pass are
duplicate-free and never include a SCHEDULED realm) — and only when
desync-adjusted now minus the realm's `lastModified` is at least
`60*60 - 9` seconds (the admission slack of 9 s). -/
theorem c3_admission_only_ready_and_due
    (ids : List Nat) (states : Nat → State) (desync : ℚ) (realm : Nat)
    (now : ℚ) (order : List Nat) :
    ((should_connected_realm_be_queued ids states desync realm now).2.2 = true →
      ((should_connected_realm_be_queued ids states desync realm now).1 realm).status
        = STATE_READY ∧
      60 * 60 - 9 ≤ (should_connected_realm_be_queued ids states desync realm now).2.1
        + desync - (states realm).last_modified) ∧
    ((states realm).status = STATE_SCHEDULED →
      (should_connected_realm_be_queued ids states desync realm now).2.2 = false) ∧
    ((states realm).status = STATE_SCHEDULED →
      realm ∉ (scheduleTick ids order states desync now).2.2) ∧
    (scheduleTick ids order states desync now).2.2.Nodup := by
  refine ⟨fun h => ?_, fun h => sq_false_of_scheduled _ _ _ _ _ h, fun h => ?_, ?_⟩
  · obtain ⟨h1, h2⟩ := sq_true_ready ids states desync realm now h
    have hlm : ((should_connected_realm_be_queued ids states desync realm now).1
        realm).last_modified = (states realm).last_modified := by
      rw [sq_store_eq]
      split_ifs
      · exact resetQuota_last_modified ids states realm
      · rfl
    rw [hlm] at h2
    exact ⟨h1, h2⟩
  · rw [scheduleTick]
    exact (tick_fold_scheduled ids desync order (states, now, []) realm h (by simp)).2
  · rw [scheduleTick]
    exact (tick_fold_nodup ids desync order (states, now, []) (by simp) (by simp)).2

/-- C3 witness: with realm 1 READY and overdue and realm 2 SCHEDULED, the
pass admits realm 1 only, and realm 2 is never submitted. -/
theorem c3_admission_only_ready_and_due_witness :
    ((should_connected_realm_be_queued [1, 2] c3states 0 1 4000).1 1).status
      = STATE_READY ∧
    (should_connected_realm_be_queued [1, 2] c3states 0 2 4000).2.2 = false ∧
    2 ∉ (scheduleTick [1, 2] [1, 2] c3states 0 4000).2.2 ∧
    (scheduleTick [1, 2] [1, 2] c3states 0 4000).2.2.Nodup :=
  have h1 := (c3_admission_only_ready_and_due [1, 2] c3states 0 1 4000 [1, 2]).1
    (by norm_num [should_connected_realm_be_queued, c3states, STATE_READY,
      STATE_ERROR_QUOTA])
  have h2 := c3_admission_only_ready_and_due [1, 2] c3states 0 2 4000 [1, 2]
  ⟨h1.1, h2.2.1 rfl, h2.2.2.1 rfl, h2.2.2.2⟩

/-- C4 counterexample: admission is not globally paused while a realm is
quota-tagged — with realm 1 in ERROR_QUOTA and its 15 s cooldown (from
`lastChecked` 4990) not yet elapsed at time 5000, a pass in the order
[2, 1] still submits realm 2, because the brake only engages when the
per-realm check reaches the quota-tagged realm itself. -/
theorem c4_counterexample :
    (quotaStates 1).status = STATE_ERROR_QUOTA ∧
    (5000 : ℚ) < (quotaStates 1).last_checked + 15 ∧
    (scheduleTick [1, 2] [2, 1] quotaStates 0 5000).2.2 = [2] := by
  refine ⟨rfl, by norm_num [quotaStates], ?_⟩
  norm_num [scheduleTick, List.foldl, scheduleStep, should_connected_realm_be_queued,
    quotaStates, resetQuota, updateState, STATE_READY, STATE_ERROR_QUOTA,
    STATE_SCHEDULED]

/-- C4 amended: when the admission check reaches a realm whose status is
ERROR_QUOTA, it blocks until 15 seconds past that realm's `lastChecked`,
then resets every ERROR_QUOTA-tagged realm to READY exactly once (other
realms untouched) before admission resumes; when the checked realm is not
quota-tagged no brake engages, so realms evaluated earlier in the same
pass may still be submitted. -/
theorem c4_quota_brake (ids : List Nat) (states : Nat → State) (desync : ℚ)
    (realm : Nat) (now : ℚ) :
    ((states realm).status = STATE_ERROR_QUOTA →
      (should_connected_realm_be_queued ids states desync realm now).2.1
        = max now ((states realm).last_checked + 15) ∧
      (states realm).last_checked + 15
        ≤ (should_connected_realm_be_queued ids states desync realm now).2.1 ∧
      (should_connected_realm_be_queued ids states desync realm now).1
        = resetQuota ids states ∧
      (∀ i ∈ ids, (states i).status = STATE_ERROR_QUOTA →
        ((should_connected_realm_be_queued ids states desync realm now).1 i).status
          = STATE_READY) ∧
      (∀ i : Nat, (states i).status ≠ STATE_ERROR_QUOTA →
        (should_connected_realm_be_queued ids states desync realm now).1 i = states i)) ∧
    ((states realm).status ≠ STATE_ERROR_QUOTA →
      (should_connected_realm_be_queued ids states desync realm now).1 = states ∧
      (should_connected_realm_be_queued ids states desync realm now).2.1 = now) := by
  constructor
  · intro h
    have hs := sq_store_eq ids states desync realm now
    have ht := sq_time_eq ids states desync realm now
    rw [if_pos h] at hs ht
    refine ⟨ht, by rw [ht]; exact le_max_right _ _, hs, fun i hi hq => ?_, fun i hq => ?_⟩
    · rw [hs]
      exact resetQuota_status_ready ids states i hi hq
    · rw [hs]
      exact resetQuota_of_ne ids states i hq
  · intro h
    have hs := sq_store_eq ids states desync realm now
    have ht := sq_time_eq ids states desync realm now
    rw [if_neg h] at hs ht
    exact ⟨hs, ht⟩

/-- C4 witness: the brake at quota-tagged realm 1 waits until 5005 and
resets realm 1 to READY. -/
theorem c4_quota_brake_witness :
    (should_connected_realm_be_queued [1, 2] quotaStates 0 1 5000).2.1 = 5005 ∧
    ((should_connected_realm_be_queued [1, 2] quotaStates 0 1 5000).1 1).status
      = STATE_READY :=
  have h := (c4_quota_brake [1, 2] quotaStates 0 1 5000).1 rfl
  ⟨by rw [h.1]; norm_num [quotaStates], h.2.2.2.1 1 (by norm_num) rfl⟩

/-- Supporting fact: a NEW_DATA outcome from the worker always carries a
timestamp, desync sample and content hash (justifying the `getD` in the
reconciler's NEW_DATA branch). -/
theorem download_newdata_metadata (db : GsaDb) (cfg : RealmConfig) (mt : ℚ)
    (fetch : ℚ → FetchResult)
    (h : (download_auction_house_and_find_deals db cfg mt fetch).status = STATE_NEW_DATA) :
    (download_auction_house_and_find_deals db cfg mt fetch).last_modified.isSome ∧
    (download_auction_house_and_find_deals db cfg mt fetch).data_hash.isSome ∧
    (download_auction_house_and_find_deals db cfg mt fetch).desync.isSome := by
  revert h
  rw [download_auction_house_and_find_deals]
  rcases hf : fetch (mt + 10 * 60) with ⟨aucs, lm, hh, d⟩ | _ | _ | msg | msg <;> intro h
  · rcases hp : (index_auctions_into_items_pets aucs).bind (find_deals_v5 db cfg) with
      m | ds <;> simp [hp]
  all_goals simp [STATE_SCHEDULED, STATE_NEW_DATA, STATE_ERROR_QUOTA, STATE_ERROR] at h

/-- C5: the worker always returns an outcome tuple (no exception
escapes): a full success maps to NEW_DATA carrying the response's content
hash, timestamp and desync sample; the provider's "not modified" signal
maps to the SCHEDULED marker; the rate-limit signal maps to ERROR_QUOTA;
an API transport error maps to ERROR whose message is `repr(ex)`, or the
empty string when it mentions ConnectionResetError; any other exception
(including one raised while indexing or matching) maps to ERROR carrying
its message. -/
theorem c5_worker_outcome_mapping (db : GsaDb) (cfg : RealmConfig) (mt : ℚ)
    (fetch : ℚ → FetchResult) :
    ((download_auction_house_and_find_deals db cfg mt fetch).status = STATE_NEW_DATA ∨
     (download_auction_house_and_find_deals db cfg mt fetch).status = STATE_SCHEDULED ∨
     (download_auction_house_and_find_deals db cfg mt fetch).status = STATE_ERROR ∨
     (download_auction_house_and_find_deals db cfg mt fetch).status = STATE_ERROR_QUOTA) ∧
    (∀ aucs lm h d ds, fetch (mt + 10 * 60) = .success aucs lm h d →
      (index_auctions_into_items_pets aucs).bind (find_deals_v5 db cfg) = Except.ok ds →
      download_auction_house_and_find_deals db cfg mt fetch =
        { status := STATE_NEW_DATA, error := "", deals := ds
          desync := some d, last_modified := some lm, data_hash := some h }) ∧
    (∀ aucs lm h d msg, fetch (mt + 10 * 60) = .success aucs lm h d →
      (index_auctions_into_items_pets aucs).bind (find_deals_v5 db cfg) = Except.error msg →
      download_auction_house_and_find_deals db cfg mt fetch =
        { status := STATE_ERROR, error := msg, deals := Deals.empty
          desync := some d, last_modified := some lm, data_hash := some h }) ∧
    (fetch (mt + 10 * 60) = .unmodified →
      (download_auction_house_and_find_deals db cfg mt fetch).status = STATE_SCHEDULED ∧
      (download_auction_house_and_find_deals db cfg mt fetch).error = "") ∧
    (fetch (mt + 10 * 60) = .quota →
      (download_auction_house_and_find_deals db cfg mt fetch).status = STATE_ERROR_QUOTA ∧
      (download_auction_house_and_find_deals db cfg mt fetch).error = "") ∧
    (∀ msg, fetch (mt + 10 * 60) = .apiError msg →
      (download_auction_house_and_find_deals db cfg mt fetch).status = STATE_ERROR ∧
      (download_auction_house_and_find_deals db cfg mt fetch).error
        = (if mentionsConnReset msg then "" else msg)) ∧
    (∀ msg, fetch (mt + 10 * 60) = .otherError msg →
      (download_auction_house_and_find_deals db cfg mt fetch).status = STATE_ERROR ∧
      (download_auction_house_and_find_deals db cfg mt fetch).error = msg) := by
  refine ⟨?_, ?_, ?_, ?_, ?_, ?_, ?_⟩
  · rw [download_auction_house_and_find_deals]
    rcases hf : fetch (mt + 10 * 60) with ⟨aucs, lm, hh, d⟩ | _ | _ | msg | msg
    · rcases hp : (index_auctions_into_items_pets aucs).bind (find_deals_v5 db cfg) with
        m | ds <;> simp [hp]
    · simp
    · simp
    · simp
    · simp
  · intro aucs lm h d ds hf hp
    rw [download_auction_house_and_find_deals, hf]
    simp [hp]
  · intro aucs lm h d msg hf hp
    rw [download_auction_house_and_find_deals, hf]
    simp [hp]
  · intro hf
    rw [download_auction_house_and_find_deals, hf]
    exact ⟨rfl, rfl⟩
  · intro hf
    rw [download_auction_house_and_find_deals, hf]
    exact ⟨rfl, rfl⟩
  · intro msg hf
    rw [download_auction_house_and_find_deals, hf]
    exact ⟨rfl, rfl⟩
  · intro msg hf
    rw [download_auction_house_and_find_deals, hf]
    exact ⟨rfl, rfl⟩

/-- C5 witness: a successful empty fetch against an empty shopping list
yields the full NEW_DATA outcome; a rate-limited fetch yields ERROR_QUOTA
with an empty message. -/
theorem c5_worker_outcome_mapping_witness :
    download_auction_house_and_find_deals emptyDb emptyCfg 0
        (fun _ => FetchResult.success [] 99990 555 2) =
      { status := STATE_NEW_DATA, error := "", deals := Deals.empty
        desync := some 2, last_modified := some 99990, data_hash := some 555 } ∧
    (download_auction_house_and_find_deals emptyDb emptyCfg 0
        (fun _ => FetchResult.quota)).status = STATE_ERROR_QUOTA :=
  ⟨(c5_worker_outcome_mapping emptyDb emptyCfg 0
      (fun _ => FetchResult.success [] 99990 555 2)).2.1 [] 99990 555 2 Deals.empty
      rfl rfl,
   ((c5_worker_outcome_mapping emptyDb emptyCfg 0 (fun _ => FetchResult.quota)).2.2.2.2.1
      rfl).1⟩

/-- C6 counterexample: a bonus whose `curveId` names a curve that is
missing from the curve database makes the resolution raise (items.py line
84, `get_curve_from_db` sits outside every try/except), rather than
contribute nothing — `iii` fails (`none`) on such an auction.  Also, a
player level below the sampled domain resolves to the *last* sample's
output (100), not the near boundary's (10): the `except` fallback is
`dbc['points'][-1]['itemLevel']` on either side of the domain. -/
theorem c6_counterexample :
    iii c6db (c6auction 5 [60]) = none ∧
    iii c6db (c6auction 0 [41]) = some (100, "") := by
  constructor <;> decide

/-- C6 amended: item-level resolution starts from the base level looked
up by item id (absent item or absent base level: level 0, no suffix); for
each type-9 scaling modifier and each bonus id carrying a curve id, the
sampled curve is interpolated piecewise-linearly at the modifier's player
level — resolving to the last sample's output when the level falls
outside the sampled domain — and the candidate is kept only if positive,
the last computed value winning; flat level deltas of the other bonus ids
are summed and added when nonzero and the last suffix name is captured;
missing item and bonus lookups contribute nothing, but a missing (or
empty) curve aborts the resolution with an error. -/
theorem c6_item_level_resolution :
    (∀ (db : GsaDb) (a : Auction), db.items.lookup a.item.id = none →
      iii db a = some (0, "")) ∧
    (∀ (db : GsaDb) (a : Auction) (dbi : ItemInfo),
      db.items.lookup a.item.id = some dbi → dbi.item_level = none →
      iii db a = some (0, "")) ∧
    (∀ (db : GsaDb) (plv i0 : Int) (b : Nat), db.bonuses.lookup b = none →
      scalingBonus db plv i0 b = some i0) ∧
    iii c6db (c6auction 5 [41]) = some (50, "") ∧
    iii c6db (c6auction 20 [41]) = some (100, "") ∧
    iii c6db (c6auction 5 [42]) = some (20, "") ∧
    iii c6db (c6auction 5 [41, 43]) = some (150, "") ∧
    iii c6db (c6auction 5 [999, 41]) = some (50, "") ∧
    iii c6db (c6auction 5 [51, 52]) = some (32, "of B") ∧
    iii c6db (c6auction 5 [51, 53]) = some (20, "of A") := by
  refine ⟨fun db a h => ?_, fun db a dbi h h2 => ?_, fun db plv i0 b h => ?_,
    ?_, ?_, ?_, ?_, ?_, ?_, ?_⟩
  · simp [iii, h]
  · simp [iii, h, h2]
  · simp [scalingBonus, h]
  all_goals decide

/-- C6 witness: the missing-item and missing-bonus clauses evaluated on
the empty database. -/
theorem c6_item_level_resolution_witness :
    iii emptyDb (mkBuyout 1 100 5) = some (0, "") ∧
    scalingBonus emptyDb 5 20 41 = some 20 :=
  ⟨c6_item_level_resolution.1 emptyDb (mkBuyout 1 100 5) rfl,
   c6_item_level_resolution.2.2.1 emptyDb 5 20 41 rfl⟩

/-! ### Deal-matcher lemmas shared by C8 -/

theorem exceptFilterMap_ok_mem {α β : Type} (p : α → Except String (Option β))
    (l : List α) :
    ∀ (out : List β), exceptFilterMap p l = Except.ok out →
      ∀ b : β, b ∈ out ↔ ∃ a ∈ l, p a = Except.ok (some b) := by
  induction l with
  | nil =>
    intro out h b
    rw [exceptFilterMap] at h
    cases h
    simp
  | cons x xs ih =>
    intro out h b
    rw [exceptFilterMap] at h
    rcases hp : p x with e | ob <;> rw [hp] at h
    · cases h
    · cases ob with
      | none =>
        rw [ih out h b]
        constructor
        · rintro ⟨a, ha, hpa⟩
          exact ⟨a, List.mem_cons_of_mem x ha, hpa⟩
        · rintro ⟨a, ha, hpa⟩
          rcases List.mem_cons.mp ha with rfl | ha
          · rw [hp] at hpa
            cases hpa
          · exact ⟨a, ha, hpa⟩
      | some b2 =>
        rcases hr : exceptFilterMap p xs with e | bs <;> rw [hr] at h
        · cases h
        · cases h
          rw [List.mem_cons, ih bs hr b]
          constructor
          · rintro (rfl | ⟨a, ha, hpa⟩)
            · exact ⟨x, List.mem_cons_self x xs, hp⟩
            · exact ⟨a, List.mem_cons_of_mem x ha, hpa⟩
          · rintro ⟨a, ha, hpa⟩
            rcases List.mem_cons.mp ha with rfl | ha
            · rw [hp] at hpa
              cases hpa
              exact Or.inl rfl
            · exact Or.inr ⟨a, ha, hpa⟩

theorem exceptFilter_ok_mem {α : Type} (p : α → Except String Bool) (l : List α)
    (out : List α) (h : exceptFilter p l = Except.ok out) (b : α) :
    b ∈ out ↔ b ∈ l ∧ p b = Except.ok true := by
  rw [exceptFilter] at h
  rw [exceptFilterMap_ok_mem _ l out h b]
  constructor
  · rintro ⟨a, ha, hpa⟩
    rcases hq : p a with e | bb <;> rw [hq] at hpa
    · cases hpa
    · cases bb with
      | false => simp at hpa
      | true =>
        simp at hpa
        cases hpa
        exact ⟨ha, hq⟩
  · rintro ⟨hb, hq⟩
    exact ⟨b, hb, by rw [hq]; simp⟩

/-- C8 counterexample: an auction can be excluded although no
price/quality/breed/level predicate fails — a configured item-level
filter also excludes.  With budget 0 (no price limit) and `ilvl = 5`, the
item-100 auction resolves to level 0 and is dropped; the single-entry
`find_deals` returns no deals at all. -/
theorem c8_counterexample :
    c8cfg.budget = 0 ∧
    itemDecision emptyDb c8cfg (mkBuyout 11 100 400) = Except.ok none ∧
    find_deals emptyDb c8shopping 1 c8auctions = Except.ok Deals.empty := by
  refine ⟨rfl, by decide, by decide⟩

/-- C8 amended: the matcher excludes a candidate auction exactly when a
configured predicate fails — the effective price (unit price, else
buyout, else bid) over a nonzero budget; for item entries additionally a
configured nonzero item-level filter whose resolved level does not match
(scalar mismatch or list non-membership); for pet entries a quality id
outside the configured quality set, a breed id outside the configured
breed set, or a level different from the configured level — and every
other candidate is returned as a deal (item deals enriched with the
cached resolution fields). -/
theorem c8_matcher_exclusion_iff :
    (∀ (db : GsaDb) (icfg : ItemCfg) (a : Auction) (lv : Int × String),
      iii db a = some lv →
      ((∃ a1, itemDecision db icfg a = Except.ok (some a1)) ↔
        (¬ (icfg.budget > 0 ∧ auction_price_get a > icfg.budget) ∧
         ∀ f, icfg.ilvl = some f → f.nonzero = true → ilvlMatches f lv.1 = true))) ∧
    (∀ (pcfg : PetCfg) (a : Auction) (q br : Nat) (plv : Nat),
      a.item.pet_quality_id = some q → a.item.pet_breed_id = some br →
      a.item.pet_level = some plv →
      (petDecision pcfg a = Except.ok true ↔
        (¬ (pcfg.budget > 0 ∧ auction_price_get a > pcfg.budget) ∧
         (∀ qs, pcfg.quality = some qs → q ∈ qs) ∧
         (∀ bs, pcfg.breed = some bs → br ∈ bs) ∧
         (∀ l0, pcfg.level = some l0 → plv = l0)))) ∧
    (∀ (db : GsaDb) (rid iid : Nat) (icfg : ItemCfg) (auctions : Deals) (ds : Deals),
      find_deals db [(rid, { items := [(iid, icfg)], pets := [] })] rid auctions
        = Except.ok ds →
      ∀ a1, a1 ∈ (ds.items.lookup iid).getD [] ↔
        ∃ a ∈ (auctions.items.lookup iid).getD [],
          itemDecision db icfg a = Except.ok (some a1)) ∧
    (∀ (db : GsaDb) (rid sid : Nat) (pcfg : PetCfg) (auctions : Deals) (ds : Deals),
      find_deals db [(rid, { items := [], pets := [(sid, pcfg)] })] rid auctions
        = Except.ok ds →
      ∀ a, a ∈ (ds.pets.lookup sid).getD [] ↔
        (a ∈ (auctions.pets.lookup sid).getD [] ∧ petDecision pcfg a = Except.ok true)) := by
  refine ⟨?_, ?_, ?_, ?_⟩
  · intro db icfg a lv hres
    by_cases hb : icfg.budget > 0 ∧ auction_price_get a > icfg.budget
    · have hd : itemDecision db icfg a = Except.ok none := by
        rw [itemDecision, if_pos hb]
      constructor
      · rintro ⟨a1, ha1⟩
        rw [hd] at ha1
        cases ha1
      · rintro ⟨hnb, _⟩
        exact absurd hb hnb
    · rcases hf : icfg.ilvl with _ | f
      · constructor
        · intro _
          refine ⟨hb, ?_⟩
          intro f2 hf2
          cases hf2
        · intro _
          by_cases hc : a.gsa_item_level.isSome = true ∧ a.gsa_item_suffix.isSome = true
          · exact ⟨a, by simp [itemDecision, hb, hf, hc]⟩
          · refine ⟨{ a with gsa_item_level := some lv.1, gsa_item_suffix := some lv.2 }, ?_⟩
            simp [itemDecision, hb, hf, hc, hres]
      · rcases hnz : f.nonzero with _ | _
        · constructor
          · intro _
            refine ⟨hb, ?_⟩
            intro f2 hf2 hnz2
            cases hf2
            rw [hnz] at hnz2
            cases hnz2
          · intro _
            by_cases hc : a.gsa_item_level.isSome = true ∧ a.gsa_item_suffix.isSome = true
            · exact ⟨a, by simp [itemDecision, hb, hf, hnz, hc]⟩
            · refine ⟨{ a with gsa_item_level := some lv.1, gsa_item_suffix := some lv.2 }, ?_⟩
              simp [itemDecision, hb, hf, hnz, hc, hres]
        · cases f with
          | int n =>
            by_cases hm : n = lv.1
            · constructor
              · intro _
                refine ⟨hb, ?_⟩
                intro f2 hf2 _
                cases hf2
                rw [ilvlMatches]
                exact decide_eq_true hm
              · intro _
                refine ⟨{ a with gsa_item_level := some lv.1, gsa_item_suffix := some lv.2 }, ?_⟩
                rw [itemDecision, if_neg hb]
                simp only [hf, hres, hnz, eq_self_iff_true, if_true]
                rw [if_neg (not_not_intro hm)]
            · constructor
              · rintro ⟨a1, ha1⟩
                rw [itemDecision, if_neg hb] at ha1
                simp only [hf, hres, hnz, eq_self_iff_true, if_true] at ha1
                rw [if_pos hm] at ha1
                cases ha1
              · rintro ⟨_, hmm⟩
                have h3 := hmm (.int n) rfl hnz
                rw [ilvlMatches] at h3
                exact absurd (of_decide_eq_true h3) hm
          | list l =>
            by_cases hm : lv.1 ∈ l
            · constructor
              · intro _
                refine ⟨hb, ?_⟩
                intro f2 hf2 _
                cases hf2
                rw [ilvlMatches]
                exact decide_eq_true hm
              · intro _
                refine ⟨{ a with gsa_item_level := some lv.1, gsa_item_suffix := some lv.2 }, ?_⟩
                rw [itemDecision, if_neg hb]
                simp only [hf, hres, hnz, eq_self_iff_true, if_true]
                rw [if_neg (not_not_intro hm)]
            · constructor
              · rintro ⟨a1, ha1⟩
                rw [itemDecision, if_neg hb] at ha1
                simp only [hf, hres, hnz, eq_self_iff_true, if_true] at ha1
                rw [if_pos hm] at ha1
                cases ha1
              · rintro ⟨_, hmm⟩
                have h3 := hmm (.list l) rfl hnz
                rw [ilvlMatches] at h3
                exact absurd (of_decide_eq_true h3) hm
  · intro pcfg a q br plv hq hbr hlv
    have hlvIff : petDecisionLevel pcfg a = Except.ok true ↔
        (∀ l0, pcfg.level = some l0 → plv = l0) := by
      rcases hls : pcfg.level with _ | l0
      · rw [petDecisionLevel]
        simp only [hls]
        constructor
        · intro _ l0 h2
          cases h2
        · intro _
          trivial
      · rw [petDecisionLevel]
        simp only [hls, hlv]
        by_cases hm : plv = l0
        · rw [if_neg (not_not_intro hm)]
          constructor
          · intro _ l2 h2
            cases h2
            exact hm
          · intro _
            rfl
        · rw [if_pos hm]
          constructor
          · intro h2
            cases h2
          · intro h2
            exact absurd (h2 l0 rfl) hm
    have hbrIff : petDecisionBreed pcfg a = Except.ok true ↔
        ((∀ bs, pcfg.breed = some bs → br ∈ bs) ∧
         (∀ l0, pcfg.level = some l0 → plv = l0)) := by
      rcases hbs : pcfg.breed with _ | bs
      · rw [petDecisionBreed]
        simp only [hbs]
        rw [hlvIff]
        constructor
        · intro h2
          exact ⟨(fun bs2 h3 => by cases h3), h2⟩
        · intro h2
          exact h2.2
      · rw [petDecisionBreed]
        simp only [hbs, hbr]
        by_cases hm : br ∈ bs
        · rw [if_neg (not_not_intro hm)]
          rw [hlvIff]
          constructor
          · intro h2
            exact ⟨(fun bs2 h3 => by cases h3; exact hm), h2⟩
          · intro h2
            exact h2.2
        · rw [if_pos hm]
          constructor
          · intro h2
            cases h2
          · intro h2
            exact absurd (h2.1 bs rfl) hm
    by_cases hb : pcfg.budget > 0 ∧ auction_price_get a > pcfg.budget
    · have hd : petDecision pcfg a = Except.ok false := by
        rw [petDecision, if_pos hb]
      rw [hd]
      constructor
      · intro h2
        cases h2
      · rintro ⟨hnb, _⟩
        exact absurd hb hnb
    · rcases hqs : pcfg.quality with _ | qs
      · have hd : petDecision pcfg a = petDecisionBreed pcfg a := by
          rw [petDecision, if_neg hb]
          simp only [hqs]
        rw [hd, hbrIff]
        constructor
        · intro h2
          exact ⟨hb, (fun qs2 h3 => by cases h3), h2.1, h2.2⟩
        · intro h2
          exact ⟨h2.2.2.1, h2.2.2.2⟩
      · by_cases hm : q ∈ qs
        · have hd : petDecision pcfg a = petDecisionBreed pcfg a := by
            rw [petDecision, if_neg hb]
            simp only [hqs, hq]
            rw [if_neg (not_not_intro hm)]
          rw [hd, hbrIff]
          constructor
          · intro h2
            exact ⟨hb, (fun qs2 h3 => by cases h3; exact hm), h2.1, h2.2⟩
          · intro h2
            exact ⟨h2.2.2.1, h2.2.2.2⟩
        · have hd : petDecision pcfg a = Except.ok false := by
            rw [petDecision, if_neg hb]
            simp only [hqs, hq]
            rw [if_pos hm]
          rw [hd]
          constructor
          · intro h2
            cases h2
          · rintro ⟨_, hqm, _, _⟩
            exact absurd (hqm qs rfl) hm
  · intro db rid iid icfg auctions ds h a1
    rw [find_deals] at h
    rw [show List.lookup rid [(rid, ({ items := [(iid, icfg)], pets := [] } : RealmConfig))]
        = some { items := [(iid, icfg)], pets := [] } by simp] at h
    simp only [itemsLoop, petsLoop] at h
    rcases hfm : exceptFilterMap (itemDecision db icfg)
        ((auctions.items.lookup iid).getD []) with e | kept <;> rw [hfm] at h
    · cases h
    · simp only [Except.ok.injEq] at h
      subst h
      by_cases hk : kept = []
      · simp only [hk, if_pos rfl]
        rw [← exceptFilterMap_ok_mem _ _ kept hfm a1, hk]
        simp
      · simp only [if_neg hk]
        rw [show (List.lookup iid [(iid, kept)]).getD [] = kept by simp]
        exact exceptFilterMap_ok_mem _ _ kept hfm a1
  · intro db rid sid pcfg auctions ds h a
    rw [find_deals] at h
    rw [show List.lookup rid [(rid, ({ items := [], pets := [(sid, pcfg)] } : RealmConfig))]
        = some { items := [], pets := [(sid, pcfg)] } by simp] at h
    simp only [itemsLoop, petsLoop] at h
    rcases hfm : exceptFilter (petDecision pcfg)
        ((auctions.pets.lookup sid).getD []) with e | kept <;> rw [hfm] at h
    · cases h
    · simp only [Except.ok.injEq] at h
      subst h
      by_cases hk : kept = []
      · simp only [hk, if_pos rfl]
        rw [← exceptFilter_ok_mem _ _ kept hfm a, hk]
        simp
      · simp only [if_neg hk]
        rw [show (List.lookup sid [(sid, kept)]).getD [] = kept by simp]
        exact exceptFilter_ok_mem _ _ kept hfm a

/-- C8 witness: a within-budget item auction is kept (enriched), and the
rare-quality pet auction passes the configured quality filter. -/
theorem c8_matcher_exclusion_iff_witness :
    (∃ a1, itemDecision emptyDb c8okCfg (mkBuyout 11 100 400000) = Except.ok (some a1)) ∧
    petDecision c8pcfg (petAuction 3 5 25) = Except.ok true :=
  ⟨(c8_matcher_exclusion_iff.1 emptyDb c8okCfg (mkBuyout 11 100 400000) (0, "")
      (by decide)).mpr ⟨by decide, (fun f hf => by cases hf)⟩,
   (c8_matcher_exclusion_iff.2.1 c8pcfg (petAuction 3 5 25) 3 5 25 rfl rfl rfl).mpr
     ⟨by decide, (fun qs h => by cases h; decide), (fun bs h => by cases h),
      (fun l0 h => by cases h)⟩⟩

/-! ### Commodity-merger lemmas shared by C7 -/

theorem lookup_cons_ite {α β : Type} [BEq α] [LawfulBEq α] [DecidableEq α]
    (k a : α) (b : β) (es : List (α × β)) :
    ((k, b) :: es).lookup a = if a = k then some b else es.lookup a := by
  rw [List.lookup_cons]
  by_cases h : a = k
  · simp [h]
  · rw [if_neg h, show (a == k) = false from beq_eq_false_iff_ne.mpr h]

theorem lookup2_nil (iid : Nat) (p : Int) : lookup2 [] iid p = none := rfl

theorem lookup2_cons (k : Nat) (prices : List (Int × Auction))
    (rest : List (Nat × List (Int × Auction))) (iid : Nat) (p : Int) :
    lookup2 ((k, prices) :: rest) iid p =
      if iid = k then List.lookup p prices else lookup2 rest iid p := by
  rw [lookup2, lookup_cons_ite]
  by_cases h : iid = k
  · rw [if_pos h, if_pos h]
  · rw [if_neg h, if_neg h, lookup2]

theorem lookup_priceInsert (prices : List (Int × Auction)) (p : Int) (c : Auction)
    (p2 : Int) :
    List.lookup p2 (priceInsert prices p c) =
      if p = p2 then
        (match List.lookup p2 prices with
         | none => some c
         | some rep => some { rep with quantity := rep.quantity + c.quantity })
      else List.lookup p2 prices := by
  induction prices with
  | nil =>
    rw [priceInsert, lookup_cons_ite]
    by_cases h : p = p2
    · rw [if_pos (Eq.symm h), if_pos h, List.lookup_nil]
    · rw [if_neg (fun hh => h (Eq.symm hh)), if_neg h, List.lookup_nil]
  | cons pr rest ih =>
    obtain ⟨p1, rep⟩ := pr
    rw [priceInsert]
    by_cases h1 : p1 = p
    · rw [if_pos h1, lookup_cons_ite, lookup_cons_ite]
      by_cases h2 : p2 = p1
      · rw [if_pos h2, if_pos h2, if_pos ((Eq.symm h1).trans (Eq.symm h2))]
      · rw [if_neg h2, if_neg h2]
        by_cases h3 : p = p2
        · exact absurd ((Eq.symm h3).trans (Eq.symm h1)) h2
        · rw [if_neg h3]
    · rw [if_neg h1, lookup_cons_ite, lookup_cons_ite]
      by_cases h2 : p2 = p1
      · rw [if_pos h2, if_pos h2,
          if_neg (fun hh => h1 (Eq.symm (hh.trans h2)))]
      · rw [if_neg h2, if_neg h2, ih]

theorem lookup2_groupInsert (tmp : List (Nat × List (Int × Auction))) (c : Auction)
    (iid : Nat) (p : Int) :
    lookup2 (groupInsert tmp c) iid p =
      if c.item.id = iid ∧ c.unit_price.getD 0 = p then
        (match lookup2 tmp iid p with
         | none => some c
         | some rep => some { rep with quantity := rep.quantity + c.quantity })
      else lookup2 tmp iid p := by
  induction tmp with
  | nil =>
    rw [groupInsert, lookup2_cons]
    by_cases hi : iid = c.item.id
    · rw [if_pos hi, lookup_cons_ite]
      by_cases hp : p = c.unit_price.getD 0
      · rw [if_pos hp, if_pos ⟨Eq.symm hi, Eq.symm hp⟩, lookup2_nil]
      · rw [if_neg hp, if_neg (fun hh => hp (Eq.symm hh.2)), lookup2_nil,
          List.lookup_nil]
    · rw [if_neg hi, if_neg (fun hh => hi (Eq.symm hh.1)), lookup2_nil]
  | cons g rest ih =>
    obtain ⟨k, prices⟩ := g
    rw [groupInsert]
    by_cases hk : k = c.item.id
    · rw [if_pos hk, lookup2_cons, lookup2_cons]
      by_cases hi : iid = k
      · rw [if_pos hi, if_pos hi, lookup_priceInsert]
        by_cases hp : c.unit_price.getD 0 = p
        · rw [if_pos hp, if_pos ⟨Eq.symm (hi.trans hk), hp⟩]
        · rw [if_neg hp, if_neg (fun hh => hp hh.2)]
      · rw [if_neg hi, if_neg hi,
          if_neg (fun hh => hi ((Eq.symm hh.1).trans (Eq.symm hk)))]
    · rw [if_neg hk, lookup2_cons, lookup2_cons]
      by_cases hi : iid = k
      · rw [if_pos hi, if_pos hi,
          if_neg (fun hh => hk (Eq.symm (hh.1.trans hi)))]
      · rw [if_neg hi, if_neg hi, ih]

theorem isCommodity_unit_price {c : Auction} (hc : isCommodity c = true) :
    ∃ q, c.unit_price = some q := by
  rcases hcu : c.unit_price with _ | q
  · rw [isCommodity, hcu] at hc
    cases hc
  · exact ⟨q, rfl⟩

theorem lookup2_mergedCommodities (l : List Auction)
    (hall : ∀ a ∈ l, isCommodity a = true) (iid : Nat) (p : Int) :
    lookup2 (mergedCommodities l) iid p = mergedRep l iid p := by
  induction l using List.reverseRecOn with
  | nil => rfl
  | append_singleton l c ih =>
    have hc : isCommodity c = true := hall c (by simp)
    have hl : ∀ a ∈ l, isCommodity a = true := fun a ha => hall a (by simp [ha])
    obtain ⟨q, hq⟩ := isCommodity_unit_price hc
    rw [mergedCommodities, List.foldl_append, List.foldl_cons, List.foldl_nil,
      show l.foldl groupInsert [] = mergedCommodities l from rfl,
      lookup2_groupInsert, ih hl]
    by_cases hm : c.item.id = iid ∧ q = p
    · have hcond : c.item.id = iid ∧ c.unit_price.getD 0 = p :=
        ⟨hm.1, by rw [hq]; exact hm.2⟩
      have hmt : matchesPricePoint iid p c = true := by
        simp [matchesPricePoint, hm.1, hq, hm.2]
      rw [if_pos hcond]
      rcases hf : List.filter (matchesPricePoint iid p) l with _ | ⟨first, rest⟩
      · have h0 : mergedRep l iid p = none := by
          rw [mergedRep, hf]
        have h1 : mergedRep (l ++ [c]) iid p =
            some { c with quantity := c.quantity + (List.map Auction.quantity []).sum } := by
          rw [mergedRep, List.filter_append, hf,
            show List.filter (matchesPricePoint iid p) [c] = [c] by simp [hmt]]
          rfl
        rw [h0, h1]
        simp
      · have h0 : mergedRep l iid p =
            some { first with quantity := first.quantity + (rest.map Auction.quantity).sum } := by
          rw [mergedRep, hf]
        have h1 : mergedRep (l ++ [c]) iid p =
            some { first with
              quantity := first.quantity + ((rest ++ [c]).map Auction.quantity).sum } := by
          rw [mergedRep, List.filter_append, hf,
            show List.filter (matchesPricePoint iid p) [c] = [c] by simp [hmt],
            List.cons_append]
        rw [h0, h1]
        simp [add_assoc]
    · have hcond : ¬ (c.item.id = iid ∧ c.unit_price.getD 0 = p) := by
        intro hh
        refine hm ⟨hh.1, ?_⟩
        have := hh.2
        rw [hq] at this
        simpa using this
      have hmt : matchesPricePoint iid p c = false := by
        rw [show (false : Bool) = decide False by rfl]
        rw [matchesPricePoint]
        simp only [hq, Option.some.injEq, decide_eq_decide]
        exact iff_false_intro (fun hh => hm ⟨hh.1, hh.2⟩)
      have h1 : mergedRep (l ++ [c]) iid p = mergedRep l iid p := by
        rw [mergedRep, mergedRep, List.filter_append,
          show List.filter (matchesPricePoint iid p) [c] = [] by simp [hmt],
          List.append_nil]
      rw [if_neg hcond, h1]

theorem mem_priceInsert {prices : List (Int × Auction)} {p : Int} {c : Auction}
    {pr : Int × Auction} (h : pr ∈ priceInsert prices p c) :
    (∃ pr0 ∈ prices, pr.1 = pr0.1 ∧
      (pr.2 = pr0.2 ∨ pr.2 = { pr0.2 with quantity := pr0.2.quantity + c.quantity })) ∨
    pr = (p, c) := by
  induction prices with
  | nil =>
    rw [priceInsert] at h
    right
    simpa using h
  | cons pr1 rest ih =>
    obtain ⟨p1, rep⟩ := pr1
    rw [priceInsert] at h
    split_ifs at h with h1
    · rcases List.mem_cons.mp h with rfl | hmem
      · exact Or.inl ⟨(p1, rep), List.mem_cons_self _ _, rfl, Or.inr rfl⟩
      · exact Or.inl ⟨pr, List.mem_cons_of_mem _ hmem, rfl, Or.inl rfl⟩
    · rcases List.mem_cons.mp h with rfl | hmem
      · exact Or.inl ⟨(p1, rep), List.mem_cons_self _ _, rfl, Or.inl rfl⟩
      · rcases ih hmem with ⟨pr0, hpr0, he⟩ | he
        · exact Or.inl ⟨pr0, List.mem_cons_of_mem _ hpr0, he⟩
        · exact Or.inr he

theorem keys_priceInsert (prices : List (Int × Auction)) (p : Int) (c : Auction) :
    (priceInsert prices p c).map Prod.fst =
      if p ∈ prices.map Prod.fst then prices.map Prod.fst
      else prices.map Prod.fst ++ [p] := by
  induction prices with
  | nil =>
    rw [priceInsert, if_neg (by simp)]
    simp
  | cons pr1 rest ih =>
    obtain ⟨p1, rep⟩ := pr1
    rw [priceInsert]
    by_cases h1 : p1 = p
    · rw [if_pos h1]
      subst h1
      rw [if_pos (by simp)]
      simp
    · rw [if_neg h1]
      by_cases h2 : p ∈ rest.map Prod.fst
      · rw [if_pos (by simp [h2])]
        simp only [List.map_cons]
        rw [ih, if_pos h2]
      · rw [if_neg (by
          simp only [List.map_cons, List.mem_cons]
          rintro (hh | hh)
          · exact h1 (Eq.symm hh)
          · exact h2 hh)]
        simp only [List.map_cons]
        rw [ih, if_neg h2]
        simp

theorem keys_groupInsert (tmp : List (Nat × List (Int × Auction))) (c : Auction) :
    (groupInsert tmp c).map Prod.fst =
      if c.item.id ∈ tmp.map Prod.fst then tmp.map Prod.fst
      else tmp.map Prod.fst ++ [c.item.id] := by
  induction tmp with
  | nil =>
    rw [groupInsert, if_neg (by simp)]
    simp
  | cons g rest ih =>
    obtain ⟨k, prices⟩ := g
    rw [groupInsert]
    by_cases h1 : k = c.item.id
    · rw [if_pos h1]
      subst h1
      rw [if_pos (by simp)]
      simp
    · rw [if_neg h1]
      by_cases h2 : c.item.id ∈ rest.map Prod.fst
      · rw [if_pos (by simp [h2])]
        simp only [List.map_cons]
        rw [ih, if_pos h2]
      · rw [if_neg (by
          simp only [List.map_cons, List.mem_cons]
          rintro (hh | hh)
          · exact h1 (Eq.symm hh)
          · exact h2 hh)]
        simp only [List.map_cons]
        rw [ih, if_neg h2]
        simp

theorem mem_groupInsert {tmp : List (Nat × List (Int × Auction))} {c : Auction}
    {g : Nat × List (Int × Auction)} (h : g ∈ groupInsert tmp c) :
    g ∈ tmp ∨
    (∃ prices, (g.1, prices) ∈ tmp ∧ g.1 = c.item.id ∧
      g.2 = priceInsert prices (c.unit_price.getD 0) c) ∨
    g = (c.item.id, [(c.unit_price.getD 0, c)]) := by
  induction tmp with
  | nil =>
    rw [groupInsert] at h
    right
    right
    simpa using h
  | cons g1 rest ih =>
    obtain ⟨k, prices⟩ := g1
    rw [groupInsert] at h
    split_ifs at h with h1
    · rcases List.mem_cons.mp h with rfl | hmem
      · exact Or.inr (Or.inl ⟨prices, List.mem_cons_self _ _, h1.symm ▸ rfl, rfl⟩)
      · exact Or.inl (List.mem_cons_of_mem _ hmem)
    · rcases List.mem_cons.mp h with rfl | hmem
      · exact Or.inl (List.mem_cons_self _ _)
      · rcases ih hmem with hm | ⟨pr, hpr, he1, he2⟩ | he
        · exact Or.inl (List.mem_cons_of_mem _ hm)
        · exact Or.inr (Or.inl ⟨pr, List.mem_cons_of_mem _ hpr, he1, he2⟩)
        · exact Or.inr (Or.inr he)

theorem tmpInv_groupInsert (tmp : List (Nat × List (Int × Auction))) (c : Auction)
    (hc : isCommodity c = true) (h : TmpInv tmp) : TmpInv (groupInsert tmp c) := by
  obtain ⟨q, hq⟩ := isCommodity_unit_price hc
  obtain ⟨hkeys, hgroups⟩ := h
  constructor
  · rw [keys_groupInsert]
    split_ifs with h1
    · exact hkeys
    · exact List.Nodup.append hkeys (List.nodup_singleton _)
        (by intro x hx hx2; simp at hx2; subst hx2; exact h1 hx)
  · intro g hg
    rcases mem_groupInsert hg with hm | ⟨prices, hpr, he1, he2⟩ | he
    · exact hgroups g hm
    · obtain ⟨hnod, hent⟩ := hgroups (g.1, prices) hpr
      constructor
      · rw [he2, keys_priceInsert]
        split_ifs with h2
        · exact hnod
        · exact List.Nodup.append hnod (List.nodup_singleton _)
            (by intro x hx hx2; simp at hx2; subst hx2; exact h2 hx)
      · intro pr hpr2
        rw [he2] at hpr2
        rcases mem_priceInsert hpr2 with ⟨pr0, hpr0, hfst, hsnd⟩ | hpc
        · obtain ⟨hid0, hup0⟩ := hent pr0 hpr0
          rcases hsnd with hsnd | hsnd
          · rw [hsnd, hfst]
            exact ⟨hid0, hup0⟩
          · rw [hsnd, hfst]
            exact ⟨hid0, hup0⟩
        · rw [hpc]
          refine ⟨he1.symm ▸ rfl, ?_⟩
          rw [hq]
          rfl
    · rw [he]
      refine ⟨List.nodup_singleton _, ?_⟩
      intro pr hpr2
      simp only [List.mem_singleton] at hpr2
      rw [hpr2]
      refine ⟨rfl, ?_⟩
      rw [hq]
      rfl

theorem tmpInv_foldl (l : List Auction) :
    ∀ (tmp : List (Nat × List (Int × Auction))),
      (∀ a ∈ l, isCommodity a = true) → TmpInv tmp →
      TmpInv (l.foldl groupInsert tmp) := by
  induction l with
  | nil => exact fun tmp _ h => h
  | cons c rest ih =>
    intro tmp hall h
    rw [List.foldl_cons]
    exact ih (groupInsert tmp c) (fun a ha => hall a (List.mem_cons_of_mem _ ha))
      (tmpInv_groupInsert tmp c (hall c (List.mem_cons_self _ _)) h)

theorem tmpInv_mergedCommodities (l : List Auction)
    (hall : ∀ a ∈ l, isCommodity a = true) : TmpInv (mergedCommodities l) :=
  tmpInv_foldl l [] hall ⟨List.nodup_nil, by intro g hg; cases hg⟩

instance : IsTotal (Int × Auction) (fun x y => y.1 ≤ x.1) :=
  ⟨fun a b => le_total b.1 a.1⟩

instance : IsTrans (Int × Auction) (fun x y => y.1 ≤ x.1) :=
  ⟨fun _ _ _ h1 h2 => le_trans h2 h1⟩

theorem sortPricesDesc_perm (prices : List (Int × Auction)) :
    List.Perm (sortPricesDesc prices) prices :=
  List.perm_insertionSort _ _

theorem sortPricesDesc_pairwise (prices : List (Int × Auction)) :
    (sortPricesDesc prices).Pairwise (fun x y => y.1 ≤ x.1) :=
  List.sorted_insertionSort _ _

theorem mem_of_lookup {α β : Type} [BEq α] [LawfulBEq α] [DecidableEq α]
    {l : List (α × β)} {k : α} {b : β} :
    List.lookup k l = some b → (k, b) ∈ l := by
  induction l with
  | nil => intro h; cases h
  | cons pr rest ih =>
    obtain ⟨k1, b1⟩ := pr
    rw [lookup_cons_ite]
    by_cases h1 : k = k1
    · rw [if_pos h1]
      intro h
      cases h
      rw [h1]
      exact List.mem_cons_self _ _
    · rw [if_neg h1]
      intro h
      exact List.mem_cons_of_mem _ (ih h)

theorem countP_key_eq (prices : List (Int × Auction)) (p : Int)
    (hnod : (prices.map Prod.fst).Nodup) :
    prices.countP (fun pr => pr.1 == p) =
      (match List.lookup p prices with | none => 0 | some _ => 1) := by
  induction prices with
  | nil => rfl
  | cons pr rest ih =>
    obtain ⟨p1, rep⟩ := pr
    simp only [List.map_cons, List.nodup_cons] at hnod
    rw [List.countP_cons, lookup_cons_ite]
    by_cases h : p = p1
    · rw [if_pos h]
      have hz : rest.countP (fun pr => pr.1 == p) = 0 := by
        rw [List.countP_eq_zero]
        intro pr2 hpr2 hb
        have hb2 : pr2.1 = p := by simpa using hb
        have hp : p1 ∈ List.map Prod.fst rest := by
          rw [← h, ← hb2]
          exact List.mem_map_of_mem Prod.fst hpr2
        exact hnod.1 hp
      rw [hz, show ((p1, rep).1 == p) = true from by simp [h]]
      rfl
    · rw [if_neg h]
      rw [show ((p1, rep).1 == p) = false from
        beq_eq_false_iff_ne.mpr (fun hh => h (Eq.symm hh))]
      rw [ih hnod.2]
      simp

theorem countP_group (k : Nat) (prices : List (Int × Auction)) (iid : Nat) (p : Int)
    (hnod : (prices.map Prod.fst).Nodup)
    (hent : ∀ pr ∈ prices, pr.2.item.id = k ∧ pr.2.unit_price = some pr.1) :
    ((sortPricesDesc prices).map Prod.snd).countP (matchesPricePoint iid p) =
      if k = iid then (match List.lookup p prices with | none => 0 | some _ => 1)
      else 0 := by
  rw [List.countP_map]
  have hperm := sortPricesDesc_perm prices
  rw [hperm.countP_eq]
  by_cases hk : k = iid
  · rw [if_pos hk]
    have hcongr : prices.countP (matchesPricePoint iid p ∘ Prod.snd) =
        prices.countP (fun pr => pr.1 == p) := by
      refine List.countP_congr (fun pr hpr => ?_)
      obtain ⟨hid, hup⟩ := hent pr hpr
      simp [matchesPricePoint, hup, hid, hk]
    rw [hcongr, countP_key_eq prices p hnod]
  · rw [if_neg hk]
    rw [List.countP_eq_zero]
    intro pr hpr hb
    obtain ⟨hid, _⟩ := hent pr hpr
    simp only [Function.comp_apply, matchesPricePoint, hid] at hb
    exact hk (of_decide_eq_true hb).1

theorem flattenGroups_cons (k : Nat) (prices : List (Int × Auction))
    (rest : List (Nat × List (Int × Auction))) :
    flattenGroups ((k, prices) :: rest) =
      (sortPricesDesc prices).map Prod.snd ++ flattenGroups rest := rfl

theorem tmpInv_tail {g : Nat × List (Int × Auction)}
    {rest : List (Nat × List (Int × Auction))} (h : TmpInv (g :: rest)) :
    TmpInv rest := by
  obtain ⟨hkeys, hgroups⟩ := h
  simp only [List.map_cons, List.nodup_cons] at hkeys
  exact ⟨hkeys.2, fun g2 hg2 => hgroups g2 (List.mem_cons_of_mem _ hg2)⟩

theorem countP_flattenGroups_zero (tmp : List (Nat × List (Int × Auction)))
    (hinv : TmpInv tmp) (iid : Nat) (p : Int) (hmem : iid ∉ tmp.map Prod.fst) :
    (flattenGroups tmp).countP (matchesPricePoint iid p) = 0 := by
  induction tmp with
  | nil => rfl
  | cons g rest ih =>
    obtain ⟨k, prices⟩ := g
    rw [flattenGroups_cons, List.countP_append]
    obtain ⟨hnod, hent⟩ := hinv.2 (k, prices) (List.mem_cons_self _ _)
    rw [countP_group k prices iid p hnod hent,
      if_neg (fun hh => hmem (by simp [hh]))]
    rw [ih (tmpInv_tail hinv) (fun hh => hmem (by simp [hh]))]

theorem countP_flattenGroups (tmp : List (Nat × List (Int × Auction)))
    (hinv : TmpInv tmp) (iid : Nat) (p : Int) :
    (flattenGroups tmp).countP (matchesPricePoint iid p) =
      (match lookup2 tmp iid p with | none => 0 | some _ => 1) := by
  induction tmp with
  | nil => rfl
  | cons g rest ih =>
    obtain ⟨k, prices⟩ := g
    rw [flattenGroups_cons, List.countP_append, lookup2_cons]
    obtain ⟨hnod, hent⟩ := hinv.2 (k, prices) (List.mem_cons_self _ _)
    rw [countP_group k prices iid p hnod hent]
    by_cases hk : iid = k
    · rw [if_pos (Eq.symm hk), if_pos hk]
      have hz : (flattenGroups rest).countP (matchesPricePoint iid p) = 0 := by
        refine countP_flattenGroups_zero rest (tmpInv_tail hinv) iid p ?_
        have := hinv.1
        simp only [List.map_cons, List.nodup_cons] at this
        exact hk ▸ this.1
      rw [hz]
      rcases List.lookup p prices with _ | rep <;> rfl
    · rw [if_neg (fun hh => hk (Eq.symm hh)), if_neg hk]
      rw [ih (tmpInv_tail hinv)]
      simp

theorem mem_flattenGroups_key (tmp : List (Nat × List (Int × Auction)))
    (hinv : TmpInv tmp) {a : Auction} (h : a ∈ flattenGroups tmp) :
    a.item.id ∈ tmp.map Prod.fst := by
  rw [flattenGroups] at h
  obtain ⟨sub, hsub, hasub⟩ := List.mem_flatten.mp h
  obtain ⟨g, hg, rfl⟩ := List.mem_map.mp hsub
  obtain ⟨pr, hpr, rfl⟩ := List.mem_map.mp hasub
  obtain ⟨hid, _⟩ := (hinv.2 g hg).2 pr ((sortPricesDesc_perm g.2).subset hpr)
  rw [hid]
  exact List.mem_map_of_mem Prod.fst hg

theorem filter_flattenGroups_nil (tmp : List (Nat × List (Int × Auction)))
    (hinv : TmpInv tmp) (iid : Nat) (hmem : iid ∉ tmp.map Prod.fst) :
    (flattenGroups tmp).filter
        (fun a => a.item.id == iid && a.unit_price.isSome) = [] := by
  rw [List.filter_eq_nil_iff]
  intro a ha hb
  simp only [Bool.and_eq_true, beq_iff_eq] at hb
  exact hmem (hb.1 ▸ mem_flattenGroups_key tmp hinv ha)

theorem filter_flattenGroups (tmp : List (Nat × List (Int × Auction)))
    (hinv : TmpInv tmp) (iid : Nat) :
    (flattenGroups tmp).filter
        (fun a => a.item.id == iid && a.unit_price.isSome) =
      ((tmp.lookup iid).map
        (fun prices => (sortPricesDesc prices).map Prod.snd)).getD [] := by
  induction tmp with
  | nil => rfl
  | cons g rest ih =>
    obtain ⟨k, prices⟩ := g
    obtain ⟨hnod, hent⟩ := hinv.2 (k, prices) (List.mem_cons_self _ _)
    rw [flattenGroups_cons, List.filter_append, lookup_cons_ite]
    by_cases hk : iid = k
    · rw [if_pos hk]
      have hall2 : ∀ a ∈ (sortPricesDesc prices).map Prod.snd,
          (a.item.id == iid && a.unit_price.isSome) = true := by
        intro a ha
        obtain ⟨pr, hpr, rfl⟩ := List.mem_map.mp ha
        obtain ⟨hid, hup⟩ := hent pr ((sortPricesDesc_perm prices).subset hpr)
        simp [hid, hup, hk]
      rw [List.filter_eq_self.mpr hall2]
      have hz2 : (flattenGroups rest).filter
          (fun a => a.item.id == iid && a.unit_price.isSome) = [] := by
        refine filter_flattenGroups_nil rest (tmpInv_tail hinv) iid ?_
        have hks := hinv.1
        simp only [List.map_cons, List.nodup_cons] at hks
        exact fun hh => hks.1 (hk ▸ hh)
      rw [hz2, List.append_nil]
      rfl
    · rw [if_neg hk]
      have hz2 : ((sortPricesDesc prices).map Prod.snd).filter
          (fun a => a.item.id == iid && a.unit_price.isSome) = [] := by
        rw [List.filter_eq_nil_iff]
        intro a ha hb
        obtain ⟨pr, hpr, rfl⟩ := List.mem_map.mp ha
        obtain ⟨hid, _⟩ := hent pr ((sortPricesDesc_perm prices).subset hpr)
        simp only [Bool.and_eq_true, beq_iff_eq] at hb
        exact hk (hb.1 ▸ hid)
      rw [hz2, List.nil_append, ih (tmpInv_tail hinv)]

theorem sorted_group_desc (k : Nat) (prices : List (Int × Auction))
    (hnod : (prices.map Prod.fst).Nodup)
    (hent : ∀ pr ∈ prices, pr.2.item.id = k ∧ pr.2.unit_price = some pr.1) :
    ((sortPricesDesc prices).map Prod.snd).Pairwise
      (fun a b => b.unit_price.getD 0 < a.unit_price.getD 0) := by
  have h1 := sortPricesDesc_pairwise prices
  have hperm := sortPricesDesc_perm prices
  have hnod2 : ((sortPricesDesc prices).map Prod.fst).Nodup :=
    (hperm.map Prod.fst).nodup_iff.mpr hnod
  have h3 : (sortPricesDesc prices).Pairwise (fun x y => x.1 ≠ y.1) :=
    List.pairwise_map.mp hnod2
  have h5 : (sortPricesDesc prices).Pairwise (fun x y => y.1 < x.1) :=
    (h1.and h3).imp (fun hab => lt_of_le_of_ne hab.1 (Ne.symm hab.2))
  refine List.pairwise_map.mpr ?_
  refine List.Pairwise.imp_of_mem ?_ h5
  intro x y hx hy hlt
  obtain ⟨_, hux⟩ := hent x (hperm.subset hx)
  obtain ⟨_, huy⟩ := hent y (hperm.subset hy)
  rw [hux, huy]
  simpa using hlt

theorem matchesPricePoint_noncomm {a : Auction} (h : isCommodity a = false)
    (iid : Nat) (p : Int) : matchesPricePoint iid p a = false := by
  rw [isCommodity] at h
  rcases hu : a.unit_price with _ | q
  · simp [matchesPricePoint, hu]
  · rw [hu] at h
    cases h

theorem countP_out_zero (l : List Auction) (iid : Nat) (p : Int) :
    (l.filter (fun a => ¬ isCommodity a)).countP (matchesPricePoint iid p) = 0 := by
  rw [List.countP_eq_zero]
  intro a ha hb
  have hfc : ¬ (isCommodity a = true) :=
    of_decide_eq_true (List.mem_filter.mp ha).2
  rw [matchesPricePoint_noncomm (Bool.eq_false_iff.mpr hfc)] at hb
  cases hb

theorem countP_smash (l : List Auction) (iid : Nat) (p : Int) :
    (smash_commodities_together l).countP (matchesPricePoint iid p) =
      (match mergedRep (l.filter isCommodity) iid p with
       | none => 0 | some _ => 1) := by
  have hall : ∀ a ∈ l.filter isCommodity, isCommodity a = true :=
    fun a ha => (List.mem_filter.mp ha).2
  simp only [smash_commodities_together]
  rw [List.countP_append, countP_out_zero, Nat.zero_add,
    countP_flattenGroups _ (tmpInv_mergedCommodities _ hall) iid p,
    lookup2_mergedCommodities _ hall]

theorem lookup2_some_mem (tmp : List (Nat × List (Int × Auction)))
    (hinv : TmpInv tmp) (iid : Nat) (p : Int) (rep : Auction)
    (h : lookup2 tmp iid p = some rep) :
    rep ∈ flattenGroups tmp ∧ rep.item.id = iid ∧ rep.unit_price = some p := by
  rcases hl : tmp.lookup iid with _ | prices
  · simp only [lookup2, hl] at h
    cases h
  · simp only [lookup2, hl] at h
    have hmem : (iid, prices) ∈ tmp := mem_of_lookup hl
    have hpmem : (p, rep) ∈ prices := mem_of_lookup h
    obtain ⟨hnod, hent⟩ := hinv.2 (iid, prices) hmem
    obtain ⟨hid, hup⟩ := hent (p, rep) hpmem
    refine ⟨?_, hid, hup⟩
    rw [flattenGroups]
    refine List.mem_flatten.mpr ⟨(sortPricesDesc prices).map Prod.snd, ?_, ?_⟩
    · exact List.mem_map_of_mem (fun g => (sortPricesDesc g.2).map Prod.snd) hmem
    · exact List.mem_map_of_mem Prod.snd ((sortPricesDesc_perm prices).mem_iff.mpr hpmem)

theorem smash_desc (l : List Auction) (iid : Nat) :
    ((smash_commodities_together l).filter
        (fun a => a.item.id == iid && a.unit_price.isSome)).Pairwise
      (fun a b => b.unit_price.getD 0 < a.unit_price.getD 0) := by
  have hall : ∀ a ∈ l.filter isCommodity, isCommodity a = true :=
    fun a ha => (List.mem_filter.mp ha).2
  have hinv := tmpInv_mergedCommodities _ hall
  simp only [smash_commodities_together]
  rw [List.filter_append]
  have hz : (l.filter (fun a => ¬ isCommodity a)).filter
      (fun a => a.item.id == iid && a.unit_price.isSome) = [] := by
    rw [List.filter_eq_nil_iff]
    intro a ha hb
    have hfc : ¬ (isCommodity a = true) :=
      of_decide_eq_true (List.mem_filter.mp ha).2
    simp only [Bool.and_eq_true] at hb
    have hfc2 := Bool.eq_false_iff.mpr hfc
    rw [isCommodity] at hfc2
    rw [hfc2] at hb
    exact Bool.false_ne_true hb.2
  rw [hz, List.nil_append, filter_flattenGroups _ hinv iid]
  rcases hl : (mergedCommodities (l.filter isCommodity)).lookup iid with _ | prices
  · exact List.Pairwise.nil
  · obtain ⟨hnod, hent⟩ := hinv.2 (iid, prices) (mem_of_lookup hl)
    exact sorted_group_desc iid prices hnod hent

/-- C7 counterexample: the output order is the opposite of the claimed
one.  On the input `[non-commodity 104, commodity 101]` the merger
returns the non-commodity FIRST and the commodity group after it, not
"all non-commodity deals appended after the commodity groups". -/
theorem c7_counterexample :
    smash_commodities_together [mkBuyout 104 2 9, mkCommodity 101 1 5 2] =
      [mkBuyout 104 2 9, mkCommodity 101 1 5 2] ∧
    smash_commodities_together [mkBuyout 104 2 9, mkCommodity 101 1 5 2] ≠
      [mkCommodity 101 1 5 2, mkBuyout 104 2 9] := by
  exact ⟨rfl, by decide⟩

/-- C7 (corrected): for every (item id, unit price) point present among
the commodity deals, the merger emits exactly one entry — the first
occurrence with all later same-price quantities summed in (`mergedRep`) —
absent points are emitted zero times, each item's price points come out
in strictly descending price order, the non-commodity deals come FIRST
and the merged commodity groups are appended after them, and the
three-auction example merges to `{price 7, qty 1}` before
`{price 5, qty 5}`. -/
theorem c7_commodity_merger (l : List Auction) (iid : Nat) (p : Int) (rep : Auction)
    (h : mergedRep (l.filter isCommodity) iid p = some rep) :
    (smash_commodities_together l).countP (matchesPricePoint iid p) = 1 ∧
    rep ∈ smash_commodities_together l ∧
    rep.item.id = iid ∧ rep.unit_price = some p ∧
    (∀ p2, mergedRep (l.filter isCommodity) iid p2 = none →
      (smash_commodities_together l).countP (matchesPricePoint iid p2) = 0) ∧
    ((smash_commodities_together l).filter
        (fun a => a.item.id == iid && a.unit_price.isSome)).Pairwise
      (fun a b => b.unit_price.getD 0 < a.unit_price.getD 0) ∧
    smash_commodities_together l =
      l.filter (fun a => ¬ isCommodity a) ++
        flattenGroups (mergedCommodities (l.filter isCommodity)) ∧
    smash_commodities_together
        [mkCommodity 1 42 5 2, mkCommodity 2 42 5 3, mkCommodity 3 42 7 1] =
      [mkCommodity 3 42 7 1, mkCommodity 1 42 5 5] := by
  have hall : ∀ a ∈ l.filter isCommodity, isCommodity a = true :=
    fun a ha => (List.mem_filter.mp ha).2
  have hinv := tmpInv_mergedCommodities _ hall
  have hlk : lookup2 (mergedCommodities (l.filter isCommodity)) iid p = some rep := by
    rw [lookup2_mergedCommodities _ hall, h]
  obtain ⟨hmem, hid, hup⟩ := lookup2_some_mem _ hinv iid p rep hlk
  refine ⟨?_, ?_, hid, hup, ?_, smash_desc l iid, rfl, by decide⟩
  · rw [countP_smash, h]
  · simp only [smash_commodities_together]
    exact List.mem_append_right _ hmem
  · intro p2 h2
    rw [countP_smash, h2]

theorem c7_commodity_merger_witness :
    mergedRep ([mkCommodity 1 42 5 2, mkCommodity 2 42 5 3,
        mkCommodity 3 42 7 1].filter isCommodity) 42 5 =
      some (mkCommodity 1 42 5 5) ∧
    mkCommodity 1 42 5 5 ∈
      smash_commodities_together
        [mkCommodity 1 42 5 2, mkCommodity 2 42 5 3, mkCommodity 3 42 7 1] :=
  ⟨by decide,
   (c7_commodity_merger [mkCommodity 1 42 5 2, mkCommodity 2 42 5 3,
      mkCommodity 3 42 7 1] 42 5 (mkCommodity 1 42 5 5) (by decide)).2.1⟩

end GSA
